import Mathlib

/-!
Shallow embedding of the HID report-descriptor parser from
`dlls/hidparse.sys/main.c` (Wine's hidparse driver).  The stateful C code is
modelled by explicit state passing: every C helper becomes a Lean function on a
`HidParserState` record, fallible helpers return `Option`.  Machine integers are
modelled as `Nat`/`Int`; the widths of the fields of `struct hid_value_caps`
come from `wine/hid.h`, which is not part of the sources, so following the
specification they are modelled as unbounded integers (usages and usage pages
are masked to 16 bits and report ids to 8 bits, the widths the specification
states explicitly).  Counters that the C code may drive below zero
(`report_count`, data indices, bit positions) are modelled as `Int`; the
specification itself describes a "negative computed first-field count" for
malformed descriptors.  Heap reallocation is assumed to succeed; the geometric
growth-cap check of `array_reserve` is modelled exactly.  The pool allocations
(`ExAllocatePool`) visible to the public entry point are driven by explicit
boolean oracles.
-/

/-- The three report directions, `HIDP_REPORT_TYPE` restricted to the values
used by the parser (`HidP_Input`, `HidP_Output`, `HidP_Feature`). -/
inductive HidReportType where
  | input
  | output
  | feature
deriving DecidableEq, Repr

/-- Modelled from the spec: the parser-derived boolean flags stored in the
`flags` bit mask of `struct hid_value_caps` (the `HID_VALUE_CAPS_IS_RANGE`,
`IS_STRING_RANGE`, `IS_DESIGNATOR_RANGE`, `IS_ABSOLUTE`, `IS_CONSTANT`,
`IS_BUTTON` and `ARRAY_HAS_MORE` constants of `wine/hid.h`, which is not under
the sources).  The specification lists exactly these seven booleans, so the
mask is modelled as a record of `Bool`s. -/
structure CapsFlags where
  isRange : Bool := false
  isStringRange : Bool := false
  isDesignatorRange : Bool := false
  isAbsolute : Bool := false
  isConstant : Bool := false
  isButton : Bool := false
  arrayHasMore : Bool := false
deriving DecidableEq, Repr

/-- Modelled from the spec: `struct hid_value_caps` from `wine/hid.h` (the
header is not under the sources; the field list follows the specification's
data model, with signed quantities as `Int` and identifiers as `Nat`). -/
structure HidValueCaps where
  usage_page : Nat := 0
  usage_min : Nat := 0
  usage_max : Nat := 0
  data_index_min : Int := 0
  data_index_max : Int := 0
  string_min : Nat := 0
  string_max : Nat := 0
  designator_min : Nat := 0
  designator_max : Nat := 0
  link_collection : Nat := 0
  link_usage_page : Nat := 0
  link_usage : Nat := 0
  bit_field : Nat := 0
  flags : CapsFlags := {}
  start_byte : Int := 0
  start_bit : Int := 0
  bit_size : Nat := 0
  report_count : Int := 0
  report_id : Nat := 0
  units_exp : Int := 0
  units : Int := 0
  logical_min : Int := 0
  logical_max : Int := 0
  physical_min : Int := 0
  physical_max : Int := 0
deriving DecidableEq, Repr

/-- The all-zero `hid_value_caps` record (`memset( .., 0, .. )`). -/
def HidValueCaps.zero : HidValueCaps := {}

/-- Modelled from the spec: the `HID_VALUE_CAPS_IS_ARRAY` macro of
`wine/hid.h` — a Main item is an array when the `INPUT_ARRAY_VAR` bit (0x02)
of its `bit_field` is clear. -/
def HID_VALUE_CAPS_IS_ARRAY (caps : HidValueCaps) : Bool :=
  ! (Nat.testBit caps.bit_field 1)

/-- The mutable parser state, `struct hid_parser_state`.  The C arrays become
total functions updated pointwise; `values[3]` become lists that grow by
appends (the C code writes at `*value_idx`, which always equals the number of
records written so far).  The `byte_size`, `value_idx` and `data_idx` pointers
into `state->caps` are modelled directly as the fields they point to.
The cursor array `bit_size` is `ULONG bit_size[3][256]` in the source, and
`byte_size`, `value_idx` and `data_idx` point to `USHORT` fields of
`state->caps`: every store into them in `parse_new_value_caps` below is
therefore truncated (`% 2^32` for the cursor, `% 2^16` for the three
counters), exactly where the C assignments land in those fields. -/
structure HidParserState where
  usages_page : Nat → Nat
  usages_min : Nat → Nat
  usages_max : Nat → Nat
  usages_size : Nat
  items : HidValueCaps
  stack : Nat → HidValueCaps
  stack_size : Nat
  global_idx : Nat
  collection_idx : Nat
  collections : List HidValueCaps
  collections_size : Nat
  values : HidReportType → List HidValueCaps
  values_size : HidReportType → Nat
  bit_size : HidReportType → Nat → Int
  byte_size : HidReportType → Int
  value_idx : HidReportType → Nat
  data_idx : HidReportType → Int
  UsagePage : Nat
  Usage : Nat
  NumberLinkCollectionNodes : Nat

/-- `init_parser_state`: the zero-filled state. -/
def init_parser_state : HidParserState where
  usages_page := fun _ => 0
  usages_min := fun _ => 0
  usages_max := fun _ => 0
  usages_size := 0
  items := HidValueCaps.zero
  stack := fun _ => HidValueCaps.zero
  stack_size := 0
  global_idx := 0
  collection_idx := 0
  collections := []
  collections_size := 0
  values := fun _ => []
  values_size := fun _ => 0
  bit_size := fun _ _ => 0
  byte_size := fun _ => 0
  value_idx := fun _ => 0
  data_idx := fun _ => 0
  UsagePage := 0
  Usage := 0
  NumberLinkCollectionNodes := 0

/-- Pointwise update of a `Nat`-indexed array. -/
def updN {α : Type} (f : Nat → α) (i : Nat) (v : α) : Nat → α :=
  fun j => if j = i then v else f j

/-- Pointwise update of a direction-indexed array. -/
def updT {α : Type} (f : HidReportType → α) (t : HidReportType) (v : α) :
    HidReportType → α :=
  fun u => if u = t then v else f u

/-- `copy_global_items`: copy the global-item subset of `src` onto `dst`. -/
def copy_global_items (dst src : HidValueCaps) : HidValueCaps :=
  { dst with
    usage_page := src.usage_page
    logical_min := src.logical_min
    logical_max := src.logical_max
    physical_min := src.physical_min
    physical_max := src.physical_max
    units_exp := src.units_exp
    units := src.units
    bit_size := src.bit_size
    report_id := src.report_id
    report_count := src.report_count }

/-- `copy_collection_items`: copy the collection-link subset of `src` onto
`dst`. -/
def copy_collection_items (dst src : HidValueCaps) : HidValueCaps :=
  { dst with
    link_collection := src.link_collection
    link_usage_page := src.link_usage_page
    link_usage := src.link_usage }

/-- `reset_local_items`: zero `items` except for its global and collection
subsets, and clear the local usage arrays. -/
def reset_local_items (state : HidParserState) : HidParserState :=
  let tmp := copy_collection_items (copy_global_items HidValueCaps.zero state.items) state.items
  { state with
    items := tmp
    usages_page := fun _ => 0
    usages_min := fun _ => 0
    usages_max := fun _ => 0
    usages_size := 0 }

/-- `array_reserve`: grow an array (geometrically, starting at 32) so that
`index` is a valid slot; returns the new capacity, or `none` when a single
growth step does not reach `index` (the C code then reports an overflow).
`realloc` itself is assumed to succeed. -/
def array_reserve (array_size index : Nat) : Option Nat :=
  if index < array_size then some array_size
  else
    let ns := if array_size = 0 then 32 else array_size * 3 / 2
    if ns ≤ index then none else some ns

/-- `parse_global_push`: push the global-item subset onto the shared stack. -/
def parse_global_push (state : HidParserState) : Option HidParserState :=
  match array_reserve state.stack_size state.global_idx with
  | none => none
  | some ns =>
      some { state with
        stack_size := ns
        stack := updN state.stack state.global_idx
          (copy_global_items (state.stack state.global_idx) state.items)
        global_idx := state.global_idx + 1 }

/-- `parse_global_pop`: pop the global-item subset; underflow fails. -/
def parse_global_pop (state : HidParserState) : Option HidParserState :=
  if state.global_idx = 0 then none
  else
    some { state with
      global_idx := state.global_idx - 1
      items := copy_global_items state.items (state.stack (state.global_idx - 1)) }

/-- `parse_local_usage`: append one usage to the local usage arrays; fails
(after writing) when more than 255 usages accumulate. -/
def parse_local_usage (state : HidParserState) (usage_page usage : Nat) :
    Option HidParserState :=
  let usage_page := if usage_page = 0 then state.items.usage_page else usage_page
  let state := if state.items.flags.isRange then { state with usages_size := 0 } else state
  let n := state.usages_size
  let state :=
    { state with
      usages_page := updN state.usages_page n usage_page
      usages_min := updN state.usages_min n usage
      usages_max := updN state.usages_max n usage
      items := { state.items with
        usage_min := usage
        usage_max := usage
        flags := { state.items.flags with isRange := false } }
      usages_size := n + 1 }
  if state.usages_size ≤ 255 then some state else none

/-- `parse_local_usage_min`: enter range mode and set the range minimum. -/
def parse_local_usage_min (state : HidParserState) (usage_page usage : Nat) :
    HidParserState :=
  let usage_page := if usage_page = 0 then state.items.usage_page else usage_page
  let state :=
    if ! state.items.flags.isRange then
      { state with usages_max := updN state.usages_max 0 0 }
    else state
  { state with
    usages_page := updN state.usages_page 0 usage_page
    usages_min := updN state.usages_min 0 usage
    items := { state.items with
      usage_min := usage
      flags := { state.items.flags with isRange := true } }
    usages_size := 1 }

/-- `parse_local_usage_max`: enter range mode and set the range maximum. -/
def parse_local_usage_max (state : HidParserState) (usage_page usage : Nat) :
    HidParserState :=
  let usage_page := if usage_page = 0 then state.items.usage_page else usage_page
  let state :=
    if ! state.items.flags.isRange then
      { state with usages_min := updN state.usages_min 0 0 }
    else state
  { state with
    usages_page := updN state.usages_page 0 usage_page
    usages_max := updN state.usages_max 0 usage
    items := { state.items with
      usage_max := usage
      flags := { state.items.flags with isRange := true } }
    usages_size := 1 }

/-- `parse_new_collection`: open a collection. -/
def parse_new_collection (state : HidParserState) : Option HidParserState :=
  match array_reserve state.stack_size state.collection_idx with
  | none => none
  | some ss =>
  match array_reserve state.collections_size state.NumberLinkCollectionNodes with
  | none => none
  | some cs =>
      let state := { state with stack_size := ss, collections_size := cs }
      let state :=
        { state with
          stack := updN state.stack state.collection_idx
            (copy_collection_items (state.stack state.collection_idx) state.items)
          collection_idx := state.collection_idx + 1 }
      let state :=
        { state with
          items := { state.items with
            usage_min := state.usages_min 0
            usage_max := state.usages_max 0 } }
      let state := { state with collections := state.collections ++ [state.items] }
      let state :=
        { state with
          items := { state.items with
            link_collection := state.NumberLinkCollectionNodes
            link_usage_page := state.items.usage_page
            link_usage := state.items.usage_min } }
      let state :=
        if state.NumberLinkCollectionNodes = 0 then
          { state with UsagePage := state.items.usage_page, Usage := state.items.usage_min }
        else state
      let state := { state with NumberLinkCollectionNodes := state.NumberLinkCollectionNodes + 1 }
      some (reset_local_items state)

/-- `parse_end_collection`: close a collection; underflow fails. -/
def parse_end_collection (state : HidParserState) : Option HidParserState :=
  if state.collection_idx = 0 then none
  else
    let state :=
      { state with
        collection_idx := state.collection_idx - 1
        items := copy_collection_items state.items (state.stack (state.collection_idx - 1)) }
    some (reset_local_items state)

/-- The per-iteration `start_bit` decrement of the emission loop of
`parse_new_value_caps`: variable items step backwards by
`report_count * bit_size`, arrays do not move.  `start_bit` is a `ULONG`
local, so the subtraction wraps modulo `2^32`. -/
def loop_start (is_array : Bool) (start_bit : Int) (items : HidValueCaps) : Int :=
  if ! is_array then
    (start_bit - items.report_count * (items.bit_size : Int)) % 4294967296
  else start_bit

/-- The record emitted by one iteration of the loop of
`parse_new_value_caps`, for loop counter value `u` (the decremented
`usages_size`): position the field, set `ARRAY_HAS_MORE` for arrays (set on
every record but the last), load the usage triple from slot `u` and assign
the data-index interval. -/
def loop_record (pg mn mx : Nat → Nat) (is_array : Bool) (u : Nat)
    (start_bit didx : Int) (items : HidValueCaps) : HidValueCaps :=
  let start_bit := loop_start is_array start_bit items
  let items :=
    if is_array then
      { items with flags := { items.flags with arrayHasMore := decide (u ≠ 0) } }
    else items
  { items with
    start_byte := start_bit / 8
    start_bit := start_bit % 8
    usage_page := pg u
    usage_min := mn u
    usage_max := mx u
    data_index_min := didx
    data_index_max := didx + ((mx u : Int) - (mn u : Int)) }

/-- The data-index advance of one loop iteration: move past the interval just
assigned, but only when the record carries a nonzero usage.  The counter is
written through `USHORT *data_idx`, so the store wraps modulo `2^16`. -/
def loop_advance (r : HidValueCaps) (didx : Int) : Int :=
  if r.usage_max ≠ 0 ∨ r.usage_min ≠ 0 then (r.data_index_max + 1) % 65536 else didx

/-- The `items` snapshot carried into the next loop iteration: variable items
continue with `report_count = 1`. -/
def loop_next_items (is_array : Bool) (r : HidValueCaps) : HidValueCaps :=
  if ! is_array then { r with report_count := 1 } else r

/-- The `while (usages_size--)` emission loop of `parse_new_value_caps`.  The
loop counter `u` plays the role of the decremented `usages_size`; the loop
body sees the values `u-1, u-2, …, 0`.  Returns the list of emitted records
(in emission order), the final `items` snapshot and the final data-index
counter.  `pg`, `mn`, `mx` are the local usage arrays, `is_array` the
Main item's array/variable mode. -/
def value_caps_loop (pg mn mx : Nat → Nat) (is_array : Bool) :
    Nat → Int → Int → HidValueCaps → List HidValueCaps × HidValueCaps × Int
  | 0, _, didx, items => ([], items, didx)
  | u + 1, start_bit, didx, items =>
      let r := loop_record pg mn mx is_array u start_bit didx items
      let rest := value_caps_loop pg mn mx is_array u (loop_start is_array start_bit items)
        (loop_advance r didx) (loop_next_items is_array r)
      (r :: rest.1, rest.2.1, rest.2.2)

/-- The `state->items.report_count -= usages_size - 1` adjustment of
`parse_new_value_caps` (applied to variable items only). -/
def main_item_count (items : HidValueCaps) (usages_size : Nat) (is_array : Bool) :
    HidValueCaps :=
  if ! is_array then
    { items with report_count := items.report_count - ((usages_size : Int) - 1) }
  else items

/-- The three flag derivations of `parse_new_value_caps`: `IS_ABSOLUTE` when
`INPUT_ABS_REL` (0x04) is clear, `IS_CONSTANT` when `INPUT_DATA_CONST` (0x01)
is set, `IS_BUTTON` when the bit size is 1 or the item is an array. -/
def main_item_flags (items : HidValueCaps) (is_array : Bool) : HidValueCaps :=
  { items with flags :=
    { items.flags with
      isAbsolute := if ! Nat.testBit items.bit_field 2 then true else items.flags.isAbsolute
      isConstant := if Nat.testBit items.bit_field 0 then true else items.flags.isConstant
      isButton := if items.bit_size = 1 ∨ is_array then true else items.flags.isButton } }

/-- `parse_new_value_caps`: process an Input/Output/Feature Main item —
advance the per-(direction, report-id) bit cursor, then expand the current
state into emitted `hid_value_caps` records.  `value_idx` is incremented once
per emitted record, i.e. by `usages_size` in total.  The cursor store
(`ULONG`) wraps modulo `2^32`; the `byte_size` and `value_idx` stores
(`USHORT`) wrap modulo `2^16`, and so does the `ULONG` local `start_bit`
when the array branch subtracts from it. -/
def parse_new_value_caps (state : HidParserState) (type : HidReportType) :
    Option HidParserState :=
  let usage_page := state.items.usage_page
  let usages_size := max 1 state.usages_size
  let cursor0 := state.bit_size type state.items.report_id
  let cursor1 := if cursor0 = 0 then 8 else cursor0
  let cursor2 :=
    (cursor1 + (state.items.bit_size : Int) * state.items.report_count) % 4294967296
  let state :=
    { state with
      bit_size := updT state.bit_size type (updN (state.bit_size type) state.items.report_id cursor2)
      byte_size := updT state.byte_size type
        ((max (state.byte_size type) ((cursor2 + 7) % 4294967296 / 8)) % 65536) }
  let start_bit := cursor2
  if state.items.report_count = 0 then some (reset_local_items state)
  else
    match array_reserve (state.values_size type) (state.value_idx type + usages_size) with
    | none => none
    | some vs =>
        let state := { state with values_size := updT state.values_size type vs }
        let is_array := HID_VALUE_CAPS_IS_ARRAY state.items
        let items1 := main_item_flags (main_item_count state.items usages_size is_array) is_array
        let start_bit :=
          if is_array then
            (start_bit - items1.report_count * (items1.bit_size : Int)) % 4294967296
          else start_bit
        let r := value_caps_loop state.usages_page state.usages_min state.usages_max
          is_array usages_size start_bit (state.data_idx type) items1
        let state :=
          { state with
            values := updT state.values type (state.values type ++ r.1)
            value_idx := updT state.value_idx type ((state.value_idx type + usages_size) % 65536)
            data_idx := updT state.data_idx type r.2.2
            items := { r.2.1 with usage_page := usage_page } }
        some (reset_local_items state)

/-- The decoded tag of a short item: the cases of the
`switch (*ptr & SHORT_ITEM( 0xf, 0x3 ))` dispatch of `parse_descriptor`.
`unknown` stands for every prefix that matches none of the listed cases
(including reserved types and long items); `delimiter` is kept separate
because the code aborts on it explicitly. -/
inductive ItemTag where
  | maininput
  | mainoutput
  | mainfeature
  | collection
  | endcollection
  | usagepage
  | logicalmin
  | logicalmax
  | physicalmin
  | physicalmax
  | unitexp
  | unit
  | reportsize
  | reportid
  | reportcount
  | push
  | pop
  | usage
  | usagemin
  | usagemax
  | designatorindex
  | designatormin
  | designatormax
  | stringindex
  | stringmin
  | stringmax
  | delimiter
  | unknown
deriving DecidableEq, Repr

/-- One decoded short item: its dispatch tag, the little-endian unsigned data
value and the sign-extended reinterpretation of the same bytes. -/
structure Item where
  tag : ItemTag
  value : Nat
  svalue : Int
deriving DecidableEq, Repr

/-- Decode the `(tag, type)` part of a short-item prefix byte into the switch
case it selects (bits 2-3 are the type, bits 4-7 the tag). -/
def decode_tag (p : Nat) : ItemTag :=
  match p / 4 % 4, p / 16 % 16 with
  | 0, 0x8 => .maininput
  | 0, 0x9 => .mainoutput
  | 0, 0xB => .mainfeature
  | 0, 0xA => .collection
  | 0, 0xC => .endcollection
  | 1, 0x0 => .usagepage
  | 1, 0x1 => .logicalmin
  | 1, 0x2 => .logicalmax
  | 1, 0x3 => .physicalmin
  | 1, 0x4 => .physicalmax
  | 1, 0x5 => .unitexp
  | 1, 0x6 => .unit
  | 1, 0x7 => .reportsize
  | 1, 0x8 => .reportid
  | 1, 0x9 => .reportcount
  | 1, 0xA => .push
  | 1, 0xB => .pop
  | 2, 0x0 => .usage
  | 2, 0x1 => .usagemin
  | 2, 0x2 => .usagemax
  | 2, 0x3 => .designatorindex
  | 2, 0x4 => .designatormin
  | 2, 0x5 => .designatormax
  | 2, 0x6 => .stringindex
  | 2, 0x7 => .stringmin
  | 2, 0x8 => .stringmax
  | 2, 0x9 => .delimiter
  | _, _ => .unknown

/-- The little-endian unsigned value of a short item's data bytes (each byte
reduced modulo 256, as bytes are). -/
def le_value (bs : List Nat) : Nat :=
  bs.foldr (fun b acc => acc * 256 + b % 256) 0

/-- The sign-extended value: `(INT8)`, `(INT16)` or `(INT32)` reinterpretation
of the `size` data bytes; 0 when `size = 0`. -/
def sign_extend (size value : Nat) : Int :=
  if size = 0 then 0
  else if value < 2 ^ (8 * size - 1) then (value : Int)
  else (value : Int) - 2 ^ (8 * size)

/-- The item reader of `parse_descriptor`, structured over a fuel counter so
that it evaluates by kernel reduction; the fuel bounds the number of items and
never runs out when it starts at the buffer length (each item consumes at
least one byte). -/
def read_items_from (fuel : Nat) : List Nat → Option (List Item)
  | [] => some []
  | p :: rest =>
      match fuel with
      | 0 => none
      | fuel + 1 =>
          let size := if p % 4 = 3 then 4 else p % 4
          if rest.length < size then none
          else
            match read_items_from fuel (rest.drop size) with
            | none => none
            | some items =>
                some (⟨decode_tag p, le_value (rest.take size),
                       sign_extend size (le_value (rest.take size))⟩ :: items)

/-- The item reader of `parse_descriptor`: split the descriptor bytes into
decoded short items.  Fails (as the C loop does, with `goto done`) when the
announced data size extends past the end of the buffer. -/
def read_items (descriptor : List Nat) : Option (List Item) :=
  read_items_from descriptor.length descriptor

/-- One iteration of the item dispatch loop of `parse_descriptor`: store the
raw value in `items.bit_field` (done for every item before the switch), then
dispatch on the decoded tag.  `none` models `goto done` with a failure. -/
def exec_item (state : HidParserState) (it : Item) : Option HidParserState :=
  let state := { state with items := { state.items with bit_field := it.value } }
  match it.tag with
  | .maininput => parse_new_value_caps state .input
  | .mainoutput => parse_new_value_caps state .output
  | .mainfeature => parse_new_value_caps state .feature
  | .collection => parse_new_collection state
  | .endcollection => parse_end_collection state
  | .usagepage => some { state with items := { state.items with usage_page := it.value % 65536 } }
  | .logicalmin => some { state with items := { state.items with logical_min := it.svalue } }
  | .logicalmax => some { state with items := { state.items with logical_max := it.svalue } }
  | .physicalmin => some { state with items := { state.items with physical_min := it.svalue } }
  | .physicalmax => some { state with items := { state.items with physical_max := it.svalue } }
  | .unitexp => some { state with items := { state.items with units_exp := it.svalue } }
  | .unit => some { state with items := { state.items with units := it.svalue } }
  | .reportsize => some { state with items := { state.items with bit_size := it.value } }
  | .reportid => some { state with items := { state.items with report_id := it.value % 256 } }
  | .reportcount => some { state with items := { state.items with report_count := (it.value : Int) } }
  | .push => parse_global_push state
  | .pop => parse_global_pop state
  | .usage => parse_local_usage state (it.value / 65536) (it.value % 65536)
  | .usagemin => some (parse_local_usage_min state (it.value / 65536) (it.value % 65536))
  | .usagemax => some (parse_local_usage_max state (it.value / 65536) (it.value % 65536))
  | .designatorindex =>
      some { state with items := { state.items with
        designator_min := it.value
        designator_max := it.value
        flags := { state.items.flags with isDesignatorRange := false } } }
  | .designatormin =>
      some { state with items := { state.items with
        designator_min := it.value
        flags := { state.items.flags with isDesignatorRange := true } } }
  | .designatormax =>
      some { state with items := { state.items with
        designator_max := it.value
        flags := { state.items.flags with isDesignatorRange := true } } }
  | .stringindex =>
      some { state with items := { state.items with
        string_min := it.value
        string_max := it.value
        flags := { state.items.flags with isStringRange := false } } }
  | .stringmin =>
      some { state with items := { state.items with
        string_min := it.value
        flags := { state.items.flags with isStringRange := true } } }
  | .stringmax =>
      some { state with items := { state.items with
        string_max := it.value
        flags := { state.items.flags with isStringRange := true } } }
  | .delimiter => none
  | .unknown => none

/-- Run the dispatch loop over a list of decoded items. -/
def parse_items : HidParserState → List Item → Option HidParserState
  | state, [] => some state
  | state, it :: rest =>
      match exec_item state it with
      | none => none
      | some state => parse_items state rest

/-- The preparsed-data blob, `struct hid_preparsed_data`, with its three
direction capability arrays and the collection array.  The `*_caps_start`,
`*_caps_count` and `*_caps_end` element offsets are determined by the list
lengths (counts) and the fixed concatenation order; `magic` and the byte
`size` are constants of the memory layout and are not modelled. -/
structure HidPreparsedData where
  usage_page : Nat
  usage : Nat
  input_caps : List HidValueCaps
  output_caps : List HidValueCaps
  feature_caps : List HidValueCaps
  collections : List HidValueCaps
  input_report_byte_length : Int
  output_report_byte_length : Int
  feature_report_byte_length : Int
  number_link_collection_nodes : Nat
deriving DecidableEq, Repr

/-- `build_preparsed_data`: pack the final parser state into the blob.  The C
code copies `*_caps_count = value_idx` records from each `values` array and
`NumberLinkCollectionNodes` records from `collections` (the `take`s below);
the counts always equal the list lengths. -/
def build_preparsed_data (state : HidParserState) : HidPreparsedData where
  usage_page := state.UsagePage
  usage := state.Usage
  input_caps := (state.values .input).take (state.value_idx .input)
  output_caps := (state.values .output).take (state.value_idx .output)
  feature_caps := (state.values .feature).take (state.value_idx .feature)
  collections := state.collections.take state.NumberLinkCollectionNodes
  input_report_byte_length := state.byte_size .input
  output_report_byte_length := state.byte_size .output
  feature_report_byte_length := state.byte_size .feature
  number_link_collection_nodes := state.NumberLinkCollectionNodes

/-- `parse_descriptor`: read the items, run the state machine, build the blob.
`alloc` is the success oracle for the single `ExAllocatePool` of
`build_preparsed_data`; all failures return `NULL` (`none`).  Reading all
items before dispatching them is observationally equivalent to the C loop,
which decodes and dispatches alternately: both yield `NULL` exactly when some
item up to and including the first faulty one fails. -/
def parse_descriptor (alloc : Bool) (descriptor : List Nat) : Option HidPreparsedData :=
  match read_items descriptor with
  | none => none
  | some its =>
      match parse_items init_parser_state its with
      | none => none
      | some state => if alloc then some (build_preparsed_data state) else none

/-- The status values returned by `HidP_GetCollectionDescription`
(`HIDP_STATUS_SUCCESS`, `HIDP_STATUS_INTERNAL_ERROR`, `STATUS_NO_MEMORY`). -/
inductive HidpStatus where
  | success
  | internalError
  | noMemory
deriving DecidableEq, Repr

/-- One entry of `device_desc->CollectionDesc` (`HIDP_COLLECTION_DESC`); the
`PreparsedData` pointer is carried as the blob itself, `PreparsedDataLength`
is a byte size of the memory layout and is not modelled. -/
structure HidpCollectionDesc where
  UsagePage : Nat
  Usage : Nat
  CollectionNumber : Nat
  InputLength : Int
  OutputLength : Int
  FeatureLength : Int
  PreparsedData : HidPreparsedData
deriving DecidableEq, Repr

/-- One entry of `device_desc->ReportIDs` (`HIDP_REPORT_IDS`). -/
structure HidpReportIds where
  ReportID : Nat
  CollectionNumber : Nat
  InputLength : Int
  OutputLength : Int
  FeatureLength : Int
deriving DecidableEq, Repr

/-- `HIDP_DEVICE_DESC`: the two output arrays and their lengths.  A `none`
pointer models `NULL`; after the function frees a buffer the field keeps its
value, exactly as the C code leaves the dangling pointer in place. -/
structure HidpDeviceDesc where
  CollectionDesc : Option HidpCollectionDesc
  CollectionDescLength : Nat
  ReportIDs : Option (List HidpReportIds)
  ReportIDsLength : Nat
deriving DecidableEq, Repr

/-- The `memset( device_desc, 0, sizeof(*device_desc) )` state. -/
def zero_device_desc : HidpDeviceDesc where
  CollectionDesc := none
  CollectionDescLength := 0
  ReportIDs := none
  ReportIDsLength := 0

/-- The per-report-id bit-length table built by one of the three caps loops of
`HidP_GetCollectionDescription`: the maximum over the caps with a given
report id of `start_byte * 8 + start_bit + bit_size * report_count`
(0 when the id does not occur). -/
def report_len_table (caps : List HidValueCaps) : Nat → Int :=
  fun i =>
    (caps.filter (fun c => c.report_id = i)).foldl
      (fun m c => max m (c.start_byte * 8 + c.start_bit + (c.bit_size : Int) * c.report_count)) 0

/-- The result of `HidP_GetCollectionDescription` together with the number of
pool allocations still live when it returns (its return value plus the
`device_desc` output; on failure the function frees everything it
allocated). -/
structure GetCollectionDescriptionResult where
  status : HidpStatus
  desc : HidpDeviceDesc
  live_allocations : Nat
deriving DecidableEq, Repr

/-- `HidP_GetCollectionDescription`.  `alloc_blob`, `alloc_collection` and
`alloc_report_ids` are the success oracles of the three `ExAllocatePool`
calls (the preparsed blob inside `parse_descriptor`, `CollectionDesc` and
`ReportIDs`).  The function zeroes `device_desc` first; on the `ReportIDs`
allocation failure it frees both earlier allocations but leaves the already
written `CollectionDesc` fields in place. -/
def HidP_GetCollectionDescription (descriptor : List Nat)
    (alloc_blob alloc_collection alloc_report_ids : Bool) :
    GetCollectionDescriptionResult :=
  match parse_descriptor alloc_blob descriptor with
  | none => ⟨.internalError, zero_device_desc, 0⟩
  | some preparsed =>
      if ! alloc_collection then ⟨.noMemory, zero_device_desc, 0⟩
      else
        let desc1 : HidpDeviceDesc :=
          { CollectionDesc := some
              { UsagePage := preparsed.usage_page
                Usage := preparsed.usage
                CollectionNumber := 1
                InputLength := preparsed.input_report_byte_length
                OutputLength := preparsed.output_report_byte_length
                FeatureLength := preparsed.feature_report_byte_length
                PreparsedData := preparsed }
            CollectionDescLength := 1
            ReportIDs := none
            ReportIDsLength := 0 }
        let input_len := report_len_table preparsed.input_caps
        let output_len := report_len_table preparsed.output_caps
        let feature_len := report_len_table preparsed.feature_caps
        if ! alloc_report_ids then ⟨.noMemory, desc1, 0⟩
        else
          let ids := (List.range 256).filter
            (fun i => ! (input_len i = 0 ∧ output_len i = 0 ∧ feature_len i = 0))
          let report_ids := ids.map (fun i =>
            ({ ReportID := i
               CollectionNumber := 1
               InputLength := (input_len i + 7) / 8
               OutputLength := (output_len i + 7) / 8
               FeatureLength := (feature_len i + 7) / 8 } : HidpReportIds))
          ⟨.success,
           { desc1 with ReportIDs := some report_ids, ReportIDsLength := report_ids.length },
           3⟩


/-- The `if (usage_max || usage_min)` test of `parse_new_value_caps`: a record
advances the data-index counter exactly when one of its usages is nonzero. -/
def hid_caps_indexed (c : HidValueCaps) : Bool :=
  decide (c.usage_max ≠ 0 ∨ c.usage_min ≠ 0)

/-- `k` lies in the data-index interval of the record `c`. -/
def caps_covers (k : Int) (c : HidValueCaps) : Bool :=
  decide (c.data_index_min ≤ k ∧ k ≤ c.data_index_max)

/-- The data-index intervals of the records of `l` partition `[0, n)`: every
integer in `[0, n)` is covered by exactly one record and nothing outside is
covered (no gaps, no overlaps). -/
def data_index_partition (l : List HidValueCaps) (n : Int) : Prop :=
  ∀ k : Int, l.countP (caps_covers k) = if 0 ≤ k ∧ k < n then 1 else 0

/-- The number of global `PUSH` items in an item list. -/
def count_push (its : List Item) : Nat :=
  its.countP (fun it => decide (it.tag = ItemTag.push))

/-- The number of global `POP` items in an item list. -/
def count_pop (its : List Item) : Nat :=
  its.countP (fun it => decide (it.tag = ItemTag.pop))

/-- The global-item subset of a record, namely `copy_global_items` onto the
zero record: two records agree on it exactly when they agree on the ten
global-item fields. -/
def global_subset (c : HidValueCaps) : HidValueCaps :=
  copy_global_items HidValueCaps.zero c

/-- Invariant of all parser states reachable by `parse_items` from the
initial state: each direction's data-index counter holds a valid `USHORT`
value, and — whenever every emitted record of a direction has a well-formed
usage range and a data-index interval strictly below the `USHORT` wrap
bound — the data-index intervals of the records with a nonzero usage
partition `[0, next-data-index)`. -/
structure parser_invariant (st : HidParserState) : Prop where
  data_idx_range : ∀ t, 0 ≤ st.data_idx t ∧ st.data_idx t < 65536
  caps_partition : ∀ t,
    (∀ c ∈ st.values t, c.usage_min ≤ c.usage_max ∧ c.data_index_max < 65535) →
    data_index_partition ((st.values t).filter hid_caps_indexed) (st.data_idx t)

/-- Scenario S1 of the specification: the minimal mouse descriptor. -/
def s1_descriptor : List Nat :=
  [0x05, 0x01, 0x09, 0x02, 0xA1, 0x01, 0x09, 0x01, 0xA1, 0x00, 0x05, 0x09,
   0x19, 0x01, 0x29, 0x03, 0x15, 0x00, 0x25, 0x01, 0x95, 0x03, 0x75, 0x01,
   0x81, 0x02, 0x95, 0x01, 0x75, 0x05, 0x81, 0x03, 0xC0, 0xC0]

/-- A descriptor consisting of a single global `POP` item (prefix `0xB4`),
executed with an empty global stack. -/
def pop_underflow_descriptor : List Nat := [0xB4]

/-- A descriptor declaring a one-bit constant padding field with no usages:
`REPORT_SIZE 1`, `REPORT_COUNT 1`, `INPUT (Cnst,Var)`. -/
def padding_descriptor : List Nat := [0x75, 0x01, 0x95, 0x01, 0x81, 0x03]

/-- A descriptor that is `n` copies of the local item `USAGE 1`. -/
def usage_run (n : Nat) : List Nat := (List.replicate n [0x09, 0x01]).flatten

/-- The parser state after 255 `USAGE` items. -/
def usage_run_state : HidParserState :=
  (parse_items init_parser_state ((read_items (usage_run 255)).getD [])).getD init_parser_state

/-- A descriptor declaring `REPORT_ID 1`, `REPORT_SIZE 8`, `REPORT_COUNT 1`
and one variable input field. -/
def report_id_descriptor : List Nat :=
  [0x85, 0x01, 0x75, 0x08, 0x95, 0x01, 0x81, 0x02]

/-- The preparsed blob of `report_id_descriptor`. -/
def report_id_preparsed : HidPreparsedData :=
  (parse_descriptor true report_id_descriptor).getD (build_preparsed_data init_parser_state)

/-- The single input capability record of `report_id_descriptor`. -/
def report_id_cap : HidValueCaps :=
  report_id_preparsed.input_caps.getD 0 HidValueCaps.zero

/-- The items of `padding_descriptor`. -/
def padding_items : List Item := (read_items padding_descriptor).getD []

/-- The parser state after processing `padding_descriptor`. -/
def padding_state : HidParserState :=
  (parse_items init_parser_state padding_items).getD init_parser_state

/-- A descriptor that drives the `ULONG` bit cursor of report id 1 past
`2^32`: `REPORT_ID 1`, then Main items of `32768 x 65535` bits twice and
`1 x 65531` bits once leave the cursor at 3 modulo `2^32`, so the final
one-bit variable field lands inside the reserved byte 0. -/
def c3_wrap_descriptor : List Nat :=
  [0x85, 0x01, 0x76, 0x00, 0x80, 0x96, 0xFF, 0xFF, 0x81, 0x02,
   0x96, 0xFF, 0xFF, 0x81, 0x02, 0x75, 0x01, 0x96, 0xFB, 0xFF, 0x81, 0x02,
   0x95, 0x01, 0x81, 0x02]

/-- The preparsed blob of `c3_wrap_descriptor`. -/
def c3_wrap_preparsed : HidPreparsedData :=
  (parse_descriptor true c3_wrap_descriptor).getD (build_preparsed_data init_parser_state)

/-- The last (fourth) input capability record of `c3_wrap_descriptor`. -/
def c3_wrap_cap : HidValueCaps := c3_wrap_preparsed.input_caps.getD 3 HidValueCaps.zero

/-- A parser state about to process a variable Main item with two usage slots
(usages 1 and 2 on page 9) and global `REPORT_COUNT 3`, `REPORT_SIZE 1`;
`bit_field` 0x02 marks the pending Main item as Data,Var,Abs. -/
def var_main_state : HidParserState :=
  { init_parser_state with
    usages_size := 2
    usages_page := updN (updN (fun _ => 0) 0 9) 1 9
    usages_min := updN (updN (fun _ => 0) 0 1) 1 2
    usages_max := updN (updN (fun _ => 0) 0 1) 1 2
    items := { HidValueCaps.zero with report_count := 3, bit_size := 1, bit_field := 2 } }

/-- A parser state about to process an array Main item with two usage slots
(usages 4 and 5 on page 7) and global `REPORT_COUNT 2`, `REPORT_SIZE 8`;
`bit_field` 0 marks the pending Main item as Data,Ary,Abs. -/
def array_main_state : HidParserState :=
  { init_parser_state with
    usages_size := 2
    usages_page := updN (updN (fun _ => 0) 0 7) 1 7
    usages_min := updN (updN (fun _ => 0) 0 4) 1 5
    usages_max := updN (updN (fun _ => 0) 0 4) 1 5
    items := { HidValueCaps.zero with report_count := 2, bit_size := 8 } }

/-- The state after processing the variable Main item of `var_main_state`. -/
def var_main_result : HidParserState :=
  (parse_new_value_caps var_main_state HidReportType.input).getD init_parser_state

/-- The state after processing the array Main item of `array_main_state`. -/
def array_main_result : HidParserState :=
  (parse_new_value_caps array_main_state HidReportType.input).getD init_parser_state

/-- A parser state with distinctive global items, used to exercise the
push/pop round trip. -/
def push_pop_state : HidParserState :=
  { init_parser_state with
    items := { HidValueCaps.zero with
      logical_min := -7, logical_max := 12, usage_page := 5,
      report_id := 3, report_count := 4, bit_size := 16, units := -2 } }

/-- The state after pushing the globals of `push_pop_state`. -/
def push_pop_s1 : HidParserState :=
  (exec_item push_pop_state ⟨ItemTag.push, 0, 0⟩).getD init_parser_state

/-- The state after popping again. -/
def push_pop_s3 : HidParserState :=
  (exec_item push_pop_s1 ⟨ItemTag.pop, 0, 0⟩).getD init_parser_state


/-- The bit-cursor value after a Main item: the old cursor for
`(direction, report_id)` (lazily initialised to 8), advanced by
`bit_size * report_count` and stored back into the `ULONG` slot, i.e.
truncated modulo `2^32`. -/
def main_item_cursor (st : HidParserState) (ty : HidReportType) : Int :=
  ((if st.bit_size ty st.items.report_id = 0 then 8
    else st.bit_size ty st.items.report_id) +
    (st.items.bit_size : Int) * st.items.report_count) % 4294967296

/-- The `items` snapshot entering the emission loop of
`parse_new_value_caps`: the report-count adjustment followed by the flag
derivations. -/
def main_item_items (st : HidParserState) : HidValueCaps :=
  main_item_flags
    (main_item_count st.items (max 1 st.usages_size) (HID_VALUE_CAPS_IS_ARRAY st.items))
    (HID_VALUE_CAPS_IS_ARRAY st.items)

/-- The initial `start_bit` of the emission loop: the advanced cursor, pulled
back to the beginning of the array for array items (a `ULONG` subtraction,
wrapping modulo `2^32`). -/
def main_item_start (st : HidParserState) (ty : HidReportType) : Int :=
  if HID_VALUE_CAPS_IS_ARRAY st.items then
    (main_item_cursor st ty -
      (main_item_items st).report_count * ((main_item_items st).bit_size : Int)) % 4294967296
  else main_item_cursor st ty

/-- The full emission loop of `parse_new_value_caps` on a given state:
record list, final `items` snapshot and final data-index counter. -/
def main_item_loop (st : HidParserState) (ty : HidReportType) :
    List HidValueCaps × HidValueCaps × Int :=
  value_caps_loop st.usages_page st.usages_min st.usages_max
    (HID_VALUE_CAPS_IS_ARRAY st.items) (max 1 st.usages_size)
    (main_item_start st ty) (st.data_idx ty) (main_item_items st)

@[simp]
theorem updT_apply_self {α : Type} (f : HidReportType → α) (t : HidReportType) (v : α) :
    updT f t v t = v := by
  simp [updT]

@[simp]
theorem updN_apply_self {α : Type} (f : Nat → α) (i : Nat) (v : α) :
    updN f i v i = v := by
  simp [updN]

theorem updN_apply_ne {α : Type} (f : Nat → α) (i : Nat) (v : α) (j : Nat) (h : j ≠ i) :
    updN f i v j = f j := by
  simp [updN, h]

@[simp]
theorem reset_local_items_values (st : HidParserState) :
    (reset_local_items st).values = st.values := rfl

@[simp]
theorem reset_local_items_value_idx (st : HidParserState) :
    (reset_local_items st).value_idx = st.value_idx := rfl

@[simp]
theorem reset_local_items_data_idx (st : HidParserState) :
    (reset_local_items st).data_idx = st.data_idx := rfl

@[simp]
theorem reset_local_items_bit_size (st : HidParserState) :
    (reset_local_items st).bit_size = st.bit_size := rfl

@[simp]
theorem reset_local_items_byte_size (st : HidParserState) :
    (reset_local_items st).byte_size = st.byte_size := rfl

@[simp]
theorem reset_local_items_stack (st : HidParserState) :
    (reset_local_items st).stack = st.stack := rfl

@[simp]
theorem reset_local_items_global_idx (st : HidParserState) :
    (reset_local_items st).global_idx = st.global_idx := rfl

@[simp]
theorem reset_local_items_collection_idx (st : HidParserState) :
    (reset_local_items st).collection_idx = st.collection_idx := rfl

@[simp]
theorem reset_local_items_usages_size (st : HidParserState) :
    (reset_local_items st).usages_size = 0 := rfl

@[simp]
theorem reset_local_items_items (st : HidParserState) :
    (reset_local_items st).items =
      copy_collection_items (copy_global_items HidValueCaps.zero st.items) st.items := rfl

@[simp]
theorem copy_global_items_report_count (dst src : HidValueCaps) :
    (copy_global_items dst src).report_count = src.report_count := rfl

@[simp]
theorem copy_collection_items_report_count (dst src : HidValueCaps) :
    (copy_collection_items dst src).report_count = dst.report_count := rfl

theorem copy_global_items_of_copy_collection_items (z a b : HidValueCaps) :
    copy_global_items z (copy_collection_items a b) = copy_global_items z a := rfl

theorem copy_global_items_of_copy_global_items (z d s : HidValueCaps) :
    copy_global_items z (copy_global_items d s) = copy_global_items z s := rfl

@[simp]
theorem loop_record_usage_min (pg mn mx : Nat → Nat) (a : Bool) (u : Nat)
    (s d : Int) (it : HidValueCaps) :
    (loop_record pg mn mx a u s d it).usage_min = mn u := rfl

@[simp]
theorem loop_record_usage_max (pg mn mx : Nat → Nat) (a : Bool) (u : Nat)
    (s d : Int) (it : HidValueCaps) :
    (loop_record pg mn mx a u s d it).usage_max = mx u := rfl

@[simp]
theorem loop_record_usage_page (pg mn mx : Nat → Nat) (a : Bool) (u : Nat)
    (s d : Int) (it : HidValueCaps) :
    (loop_record pg mn mx a u s d it).usage_page = pg u := rfl

@[simp]
theorem loop_record_data_index_min (pg mn mx : Nat → Nat) (a : Bool) (u : Nat)
    (s d : Int) (it : HidValueCaps) :
    (loop_record pg mn mx a u s d it).data_index_min = d := rfl

@[simp]
theorem loop_record_data_index_max (pg mn mx : Nat → Nat) (a : Bool) (u : Nat)
    (s d : Int) (it : HidValueCaps) :
    (loop_record pg mn mx a u s d it).data_index_max = d + ((mx u : Int) - (mn u : Int)) := rfl

@[simp]
theorem loop_record_start_byte (pg mn mx : Nat → Nat) (a : Bool) (u : Nat)
    (s d : Int) (it : HidValueCaps) :
    (loop_record pg mn mx a u s d it).start_byte = loop_start a s it / 8 := rfl

@[simp]
theorem loop_record_start_bit (pg mn mx : Nat → Nat) (a : Bool) (u : Nat)
    (s d : Int) (it : HidValueCaps) :
    (loop_record pg mn mx a u s d it).start_bit = loop_start a s it % 8 := rfl

@[simp]
theorem loop_record_report_count (pg mn mx : Nat → Nat) (a : Bool) (u : Nat)
    (s d : Int) (it : HidValueCaps) :
    (loop_record pg mn mx a u s d it).report_count = it.report_count := by
  unfold loop_record
  split <;> rfl

@[simp]
theorem loop_record_bit_size (pg mn mx : Nat → Nat) (a : Bool) (u : Nat)
    (s d : Int) (it : HidValueCaps) :
    (loop_record pg mn mx a u s d it).bit_size = it.bit_size := by
  unfold loop_record
  split <;> rfl

@[simp]
theorem loop_record_report_id (pg mn mx : Nat → Nat) (a : Bool) (u : Nat)
    (s d : Int) (it : HidValueCaps) :
    (loop_record pg mn mx a u s d it).report_id = it.report_id := by
  unfold loop_record
  split <;> rfl

theorem loop_record_hasmore (pg mn mx : Nat → Nat) (a : Bool) (u : Nat)
    (s d : Int) (it : HidValueCaps) :
    (loop_record pg mn mx a u s d it).flags.arrayHasMore =
      if a then decide (u ≠ 0) else it.flags.arrayHasMore := by
  unfold loop_record
  split <;> rfl

@[simp]
theorem loop_next_items_report_count (a : Bool) (r : HidValueCaps) :
    (loop_next_items a r).report_count = if a then r.report_count else 1 := by
  unfold loop_next_items
  rcases a <;> rfl

@[simp]
theorem loop_next_items_bit_size (a : Bool) (r : HidValueCaps) :
    (loop_next_items a r).bit_size = r.bit_size := by
  unfold loop_next_items
  split <;> rfl

theorem value_caps_loop_length (pg mn mx : Nat → Nat) (a : Bool) (u : Nat)
    (s d : Int) (it : HidValueCaps) :
    (value_caps_loop pg mn mx a u s d it).1.length = u := by
  induction u generalizing s d it with
  | zero => rfl
  | succ u ih => simp only [value_caps_loop, List.length_cons, ih]

theorem value_caps_loop_var_map_rc (pg mn mx : Nat → Nat) (u : Nat)
    (s d : Int) (it : HidValueCaps) :
    (value_caps_loop pg mn mx false (u + 1) s d it).1.map (fun c => c.report_count) =
      it.report_count :: List.replicate u 1 := by
  induction u generalizing s d it with
  | zero => simp [value_caps_loop]
  | succ u ih =>
      rw [value_caps_loop]
      simp [ih, List.replicate_succ]

theorem value_caps_loop_var_final_rc (pg mn mx : Nat → Nat) (u : Nat)
    (s d : Int) (it : HidValueCaps) :
    (value_caps_loop pg mn mx false (u + 1) s d it).2.1.report_count = 1 := by
  induction u generalizing s d it with
  | zero => simp [value_caps_loop]
  | succ u ih =>
      rw [value_caps_loop]
      simp [ih]

theorem value_caps_loop_array_final (pg mn mx : Nat → Nat) (u : Nat)
    (s d : Int) (it : HidValueCaps) :
    (value_caps_loop pg mn mx true u s d it).2.1.report_count = it.report_count := by
  induction u generalizing s d it with
  | zero => rfl
  | succ u ih =>
      rw [value_caps_loop]
      simp [ih]

theorem value_caps_loop_array_shape (pg mn mx : Nat → Nat) (u : Nat)
    (s d : Int) (it : HidValueCaps) :
    ∀ r ∈ (value_caps_loop pg mn mx true u s d it).1,
      r.start_byte = s / 8 ∧ r.start_bit = s % 8 ∧ r.bit_size = it.bit_size ∧
        r.report_count = it.report_count := by
  induction u generalizing s d it with
  | zero => intro r hr; simp [value_caps_loop] at hr
  | succ u ih =>
      intro r hr
      rw [value_caps_loop] at hr
      rcases List.mem_cons.mp hr with rfl | hr2
      · refine ⟨?_, ?_, ?_, ?_⟩ <;> simp [loop_start]
      · have h2 := ih _ _ _ r hr2
        simp only [loop_next_items_bit_size] at h2
        refine ⟨?_, ?_, h2.2.2.1, ?_⟩
        · rw [h2.1]; simp [loop_start]
        · rw [h2.2.1]; simp [loop_start]
        · rw [h2.2.2.2]; simp [loop_next_items]

theorem value_caps_loop_array_hasmore (pg mn mx : Nat → Nat) (u : Nat)
    (s d : Int) (it : HidValueCaps) :
    (value_caps_loop pg mn mx true (u + 1) s d it).1.map (fun c => c.flags.arrayHasMore) =
      List.replicate u true ++ [false] := by
  induction u generalizing s d it with
  | zero => simp [value_caps_loop, loop_record_hasmore]
  | succ u ih =>
      rw [value_caps_loop]
      simp [ih, List.replicate_succ, loop_record_hasmore]

theorem value_caps_loop_head_usage (pg mn mx : Nat → Nat) (a : Bool) (u : Nat)
    (s d : Int) (it : HidValueCaps) :
    (value_caps_loop pg mn mx a (u + 1) s d it).1.head?.map
        (fun r => (r.usage_page, r.usage_min, r.usage_max)) =
      some (pg u, mn u, mx u) := by
  rw [value_caps_loop]
  rfl

theorem value_caps_loop_data (pg mn mx : Nat → Nat) (a : Bool) (u : Nat)
    (s d : Int) (it : HidValueCaps)
    (hd : 0 ≤ d)
    (h : ∀ r ∈ (value_caps_loop pg mn mx a u s d it).1,
      r.usage_min ≤ r.usage_max ∧ r.data_index_max < 65535) :
    d ≤ (value_caps_loop pg mn mx a u s d it).2.2 ∧
      ∀ k : Int, ((value_caps_loop pg mn mx a u s d it).1.filter hid_caps_indexed).countP
          (caps_covers k) =
        if d ≤ k ∧ k < (value_caps_loop pg mn mx a u s d it).2.2 then 1 else 0 := by
  induction u generalizing s d it with
  | zero =>
      refine ⟨le_refl d, ?_⟩
      intro k
      simp only [value_caps_loop, List.filter_nil, List.countP_nil]
      exact (if_neg (by omega)).symm
  | succ u ih =>
      rw [value_caps_loop] at h ⊢
      set r0 := loop_record pg mn mx a u s d it with hr0
      have hhead := h r0 (List.mem_cons_self _ _)
      have hmm : mn u ≤ mx u := by
        have := hhead.1
        simpa [hr0] using this
      have hmmI : (mn u : Int) ≤ (mx u : Int) := by exact_mod_cast hmm
      have hmax : r0.data_index_max = d + ((mx u : Int) - (mn u : Int)) := by
        rw [hr0, loop_record_data_index_max]
      have hbnd : d + ((mx u : Int) - (mn u : Int)) < 65535 := by
        rw [← hmax]
        exact hhead.2
      by_cases hix : r0.usage_max ≠ 0 ∨ r0.usage_min ≠ 0
      · have hidx : hid_caps_indexed r0 = true := by
          simp [hid_caps_indexed, hix]
        have hadv : loop_advance r0 d = d + ((mx u : Int) - (mn u : Int)) + 1 := by
          rw [loop_advance, if_pos hix, hmax]
          exact Int.emod_eq_of_lt (by omega) (by omega)
        rw [hadv] at h ⊢
        have htail := fun r hr => h r (List.mem_cons_of_mem _ hr)
        obtain ⟨IH1, IH2⟩ := ih (loop_start a s it) (d + ((mx u : Int) - (mn u : Int)) + 1)
          (loop_next_items a r0) (by omega) htail
        constructor
        · show d ≤ (value_caps_loop pg mn mx a u (loop_start a s it)
            (d + ((mx u : Int) - (mn u : Int)) + 1) (loop_next_items a r0)).2.2
          omega
        · intro k
          show ((r0 :: (value_caps_loop pg mn mx a u (loop_start a s it)
              (d + ((mx u : Int) - (mn u : Int)) + 1) (loop_next_items a r0)).1).filter
              hid_caps_indexed).countP (caps_covers k) =
            if d ≤ k ∧ k < (value_caps_loop pg mn mx a u (loop_start a s it)
              (d + ((mx u : Int) - (mn u : Int)) + 1) (loop_next_items a r0)).2.2 then 1 else 0
          have hcov : (caps_covers k r0 = true) ↔
              (d ≤ k ∧ k ≤ d + ((mx u : Int) - (mn u : Int))) := by
            simp [caps_covers, hr0]
          rw [List.filter_cons, if_pos hidx, List.countP_cons, IH2 k]
          simp only [hcov]
          split_ifs <;> omega
      · have hidx : hid_caps_indexed r0 = false := by
          simp only [hid_caps_indexed, decide_eq_false_iff_not]
          exact hix
        have hadv : loop_advance r0 d = d := by
          rw [loop_advance, if_neg hix]
        rw [hadv] at h ⊢
        have htail := fun r hr => h r (List.mem_cons_of_mem _ hr)
        obtain ⟨IH1, IH2⟩ := ih (loop_start a s it) d (loop_next_items a r0) hd htail
        constructor
        · show d ≤ (value_caps_loop pg mn mx a u (loop_start a s it) d
            (loop_next_items a r0)).2.2
          exact IH1
        · intro k
          show ((r0 :: (value_caps_loop pg mn mx a u (loop_start a s it) d
              (loop_next_items a r0)).1).filter hid_caps_indexed).countP (caps_covers k) =
            if d ≤ k ∧ k < (value_caps_loop pg mn mx a u (loop_start a s it) d
              (loop_next_items a r0)).2.2 then 1 else 0
          rw [List.filter_cons, if_neg (by simp [hidx])]
          exact IH2 k

theorem value_caps_loop_advance_range (pg mn mx : Nat → Nat) (a : Bool) (u : Nat)
    (s d : Int) (it : HidValueCaps) (hd : 0 ≤ d ∧ d < 65536) :
    0 ≤ (value_caps_loop pg mn mx a u s d it).2.2 ∧
      (value_caps_loop pg mn mx a u s d it).2.2 < 65536 := by
  induction u generalizing s d it with
  | zero => exact hd
  | succ u ih =>
      rw [value_caps_loop]
      refine ih (loop_start a s it)
        (loop_advance (loop_record pg mn mx a u s d it) d) (loop_next_items a
          (loop_record pg mn mx a u s d it)) ?_
      rw [loop_advance]
      split
      · exact ⟨Int.emod_nonneg _ (by omega), Int.emod_lt_of_pos _ (by omega)⟩
      · exact hd

theorem parse_new_value_caps_elim (st : HidParserState) (ty : HidReportType)
    (st1 : HidParserState)
    (h : parse_new_value_caps st ty = some st1)
    (hrc : st.items.report_count ≠ 0) :
    st1.values ty = st.values ty ++ (main_item_loop st ty).1 ∧
    (∀ t, t ≠ ty → st1.values t = st.values t) ∧
    st1.data_idx ty = (main_item_loop st ty).2.2 ∧
    (∀ t, t ≠ ty → st1.data_idx t = st.data_idx t) ∧
    st1.bit_size = updT st.bit_size ty
      (updN (st.bit_size ty) st.items.report_id (main_item_cursor st ty)) ∧
    st1.stack = st.stack ∧ st1.global_idx = st.global_idx ∧
    st1.collection_idx = st.collection_idx ∧
    st1.items.report_count = (main_item_loop st ty).2.1.report_count := by
  rw [parse_new_value_caps] at h
  rw [if_neg hrc] at h
  split at h
  · exact absurd h (by simp)
  · injection h with h2
    subst h2
    refine ⟨?_, ?_, ?_, ?_, ?_, rfl, rfl, rfl, ?_⟩
    · simp only [reset_local_items_values, updT_apply_self]
      rfl
    · intro t ht
      simp only [reset_local_items_values]
      show updT _ ty _ t = _
      simp [updT, ht]
    · simp only [reset_local_items_data_idx, updT_apply_self]
      rfl
    · intro t ht
      simp only [reset_local_items_data_idx]
      show updT _ ty _ t = _
      simp [updT, ht]
    · simp only [reset_local_items_bit_size]
      rfl
    · simp only [reset_local_items_items, copy_collection_items_report_count,
        copy_global_items_report_count]
      rfl

theorem parse_new_value_caps_zero_elim (st : HidParserState) (ty : HidReportType)
    (st1 : HidParserState)
    (h : parse_new_value_caps st ty = some st1)
    (hrc : st.items.report_count = 0) :
    (∀ t, st1.values t = st.values t) ∧
    (∀ t, st1.data_idx t = st.data_idx t) ∧
    st1.bit_size = updT st.bit_size ty
      (updN (st.bit_size ty) st.items.report_id (main_item_cursor st ty)) ∧
    st1.stack = st.stack ∧ st1.global_idx = st.global_idx ∧
    st1.collection_idx = st.collection_idx ∧
    st1.items.report_count = st.items.report_count := by
  rw [parse_new_value_caps] at h
  rw [if_pos hrc] at h
  injection h with h2
  subst h2
  exact ⟨fun t => rfl, fun t => rfl, rfl, rfl, rfl, rfl, rfl⟩

theorem exec_item_push (st st1 : HidParserState) (v : Nat) (sv : Int)
    (h : exec_item st ⟨ItemTag.push, v, sv⟩ = some st1) :
    st1.global_idx = st.global_idx + 1 ∧
    (∀ i, i ≠ st.global_idx → st1.stack i = st.stack i) ∧
    global_subset (st1.stack st.global_idx) = global_subset st.items := by
  simp only [exec_item] at h
  rw [parse_global_push] at h
  split at h
  · exact absurd h (by simp)
  · injection h with h2
    subst h2
    refine ⟨rfl, ?_, ?_⟩
    · intro i hi
      show updN _ _ _ i = _
      simp [updN, hi]
    · show global_subset (updN _ _ _ st.global_idx) = _
      rw [updN_apply_self]
      unfold global_subset
      rw [copy_global_items_of_copy_global_items]
      rfl

theorem exec_item_pop (st st1 : HidParserState) (v : Nat) (sv : Int)
    (h : exec_item st ⟨ItemTag.pop, v, sv⟩ = some st1) :
    st.global_idx ≠ 0 ∧
    st1.global_idx = st.global_idx - 1 ∧
    st1.stack = st.stack ∧
    global_subset st1.items = global_subset (st.stack (st.global_idx - 1)) := by
  simp only [exec_item] at h
  rw [parse_global_pop] at h
  split at h
  · exact absurd h (by simp)
  · next hgz =>
    injection h with h2
    subst h2
    refine ⟨hgz, rfl, rfl, ?_⟩
    unfold global_subset
    rw [copy_global_items_of_copy_global_items]


theorem exec_item_other (st st1 : HidParserState) (it : Item)
    (h : exec_item st it = some st1)
    (hp : it.tag ≠ ItemTag.push) (hq : it.tag ≠ ItemTag.pop) :
    st1.global_idx = st.global_idx ∧
    ∀ i, global_subset (st1.stack i) = global_subset (st.stack i) := by
  obtain ⟨tag, v, sv⟩ := it
  cases tag
  case push => exact absurd rfl hp
  case pop => exact absurd rfl hq
  case maininput =>
    simp only [exec_item] at h
    by_cases hz : ({ st with items := { st.items with bit_field := v } } :
        HidParserState).items.report_count = 0
    · obtain ⟨_, _, _, hs, hg, _, _⟩ := parse_new_value_caps_zero_elim _ _ _ h hz
      exact ⟨hg, fun i => by rw [hs]⟩
    · obtain ⟨_, _, _, _, _, hs, hg, _, _⟩ := parse_new_value_caps_elim _ _ _ h hz
      exact ⟨hg, fun i => by rw [hs]⟩
  case mainoutput =>
    simp only [exec_item] at h
    by_cases hz : ({ st with items := { st.items with bit_field := v } } :
        HidParserState).items.report_count = 0
    · obtain ⟨_, _, _, hs, hg, _, _⟩ := parse_new_value_caps_zero_elim _ _ _ h hz
      exact ⟨hg, fun i => by rw [hs]⟩
    · obtain ⟨_, _, _, _, _, hs, hg, _, _⟩ := parse_new_value_caps_elim _ _ _ h hz
      exact ⟨hg, fun i => by rw [hs]⟩
  case mainfeature =>
    simp only [exec_item] at h
    by_cases hz : ({ st with items := { st.items with bit_field := v } } :
        HidParserState).items.report_count = 0
    · obtain ⟨_, _, _, hs, hg, _, _⟩ := parse_new_value_caps_zero_elim _ _ _ h hz
      exact ⟨hg, fun i => by rw [hs]⟩
    · obtain ⟨_, _, _, _, _, hs, hg, _, _⟩ := parse_new_value_caps_elim _ _ _ h hz
      exact ⟨hg, fun i => by rw [hs]⟩
  case collection =>
    simp only [exec_item] at h
    rw [parse_new_collection] at h
    split at h
    · exact absurd h (by simp)
    · split at h
      · exact absurd h (by simp)
      · injection h with h2
        subst h2
        constructor
        · rw [reset_local_items_global_idx]
          split <;> rfl
        · intro i
          rw [reset_local_items_stack]
          split <;>
          · show global_subset (updN st.stack st.collection_idx
                (copy_collection_items (st.stack st.collection_idx)
                  { st.items with bit_field := v }) i) = global_subset (st.stack i)
            by_cases hi : i = st.collection_idx
            · subst hi
              rw [updN_apply_self]
              unfold global_subset
              rw [copy_global_items_of_copy_collection_items]
            · rw [updN_apply_ne _ _ _ _ hi]
  case endcollection =>
    simp only [exec_item] at h
    rw [parse_end_collection] at h
    split at h
    · exact absurd h (by simp)
    · injection h with h2
      subst h2
      exact ⟨rfl, fun i => rfl⟩
  case usage =>
    simp only [exec_item] at h
    rw [parse_local_usage] at h
    repeat' split at h
    all_goals
      first
        | exact Option.noConfusion h
        | (injection h with h2
           subst h2
           exact ⟨rfl, fun i => rfl⟩)
  case usagemin =>
    simp only [exec_item] at h
    injection h with h2
    subst h2
    rw [parse_local_usage_min]
    constructor
    · split <;> rfl
    · intro i; split <;> rfl
  case usagemax =>
    simp only [exec_item] at h
    injection h with h2
    subst h2
    rw [parse_local_usage_max]
    constructor
    · split <;> rfl
    · intro i; split <;> rfl
  case delimiter => exact absurd h (by simp [exec_item])
  case unknown => exact absurd h (by simp [exec_item])
  all_goals (
    simp only [exec_item] at h
    injection h with h2
    subst h2
    exact ⟨rfl, fun i => rfl⟩)

theorem count_push_cons (it : Item) (l : List Item) :
    count_push (it :: l) = count_push l + (if it.tag = ItemTag.push then 1 else 0) := by
  simp [count_push, List.countP_cons]

theorem count_pop_cons (it : Item) (l : List Item) :
    count_pop (it :: l) = count_pop l + (if it.tag = ItemTag.pop then 1 else 0) := by
  simp [count_pop, List.countP_cons]

theorem parse_items_balanced (mid : List Item) :
    ∀ (st st2 : HidParserState) (m : Nat),
      parse_items st mid = some st2 →
      (∀ l1 l2, mid = l1 ++ l2 → m + 1 + count_pop l1 ≤ st.global_idx + count_push l1) →
      st2.global_idx + count_pop mid = st.global_idx + count_push mid ∧
        global_subset (st2.stack m) = global_subset (st.stack m) := by
  induction mid with
  | nil =>
      intro st st2 m h _
      rw [parse_items] at h
      injection h with h2
      subst h2
      exact ⟨rfl, rfl⟩
  | cons it rest ih =>
      intro st st2 m h hpre
      rw [parse_items] at h
      split at h
      · exact Option.noConfusion h
      · next s1 heq =>
        have hm1 : m + 1 ≤ st.global_idx := by
          have := hpre [] (it :: rest) rfl
          simpa [count_push, count_pop] using this
        obtain ⟨tag, v, sv⟩ := it
        by_cases hp : tag = ItemTag.push
        · subst hp
          obtain ⟨hg1, hs1, _⟩ := exec_item_push st s1 v sv heq
          have hib : ∀ l1 l2, rest = l1 ++ l2 →
              m + 1 + count_pop l1 ≤ s1.global_idx + count_push l1 := by
            intro l1 l2 hsplit
            have := hpre (⟨ItemTag.push, v, sv⟩ :: l1) l2 (by rw [hsplit]; exact rfl)
            rw [count_pop_cons, count_push_cons,
              if_neg (show ItemTag.push ≠ ItemTag.pop by decide), if_pos rfl] at this
            omega
          obtain ⟨ihc, ihs⟩ := ih s1 st2 m h hib
          constructor
          · rw [count_pop_cons, count_push_cons,
              if_neg (show ItemTag.push ≠ ItemTag.pop by decide), if_pos rfl]
            omega
          · rw [ihs, hs1 m (by omega)]
        · by_cases hq : tag = ItemTag.pop
          · subst hq
            obtain ⟨hnz, hg1, hs1, _⟩ := exec_item_pop st s1 v sv heq
            have hib : ∀ l1 l2, rest = l1 ++ l2 →
                m + 1 + count_pop l1 ≤ s1.global_idx + count_push l1 := by
              intro l1 l2 hsplit
              have := hpre (⟨ItemTag.pop, v, sv⟩ :: l1) l2 (by rw [hsplit]; exact rfl)
              rw [count_pop_cons, count_push_cons, if_pos rfl,
                if_neg (show ItemTag.pop ≠ ItemTag.push by decide)] at this
              omega
            obtain ⟨ihc, ihs⟩ := ih s1 st2 m h hib
            constructor
            · rw [count_pop_cons, count_push_cons, if_pos rfl,
                if_neg (show ItemTag.pop ≠ ItemTag.push by decide)]
              omega
            · rw [ihs, hs1]
          · obtain ⟨hg1, hs1⟩ := exec_item_other st s1 ⟨tag, v, sv⟩ heq hp hq
            have hib : ∀ l1 l2, rest = l1 ++ l2 →
                m + 1 + count_pop l1 ≤ s1.global_idx + count_push l1 := by
              intro l1 l2 hsplit
              have := hpre (⟨tag, v, sv⟩ :: l1) l2 (by rw [hsplit]; exact rfl)
              rw [count_pop_cons, count_push_cons] at this
              rw [if_neg hq, if_neg hp] at this
              omega
            obtain ⟨ihc, ihs⟩ := ih s1 st2 m h hib
            constructor
            · rw [count_pop_cons, count_push_cons, if_neg hq, if_neg hp]
              omega
            · rw [ihs, hs1 m]

/-- C7: executing a global PUSH, then any successfully parsed item sequence
whose PUSH/POP items are balanced and never underflow below the matching
level, then the matching global POP, restores the global item subset of
`items` (usage_page, logical_min/max, physical_min/max, units_exp, units,
bit_size, report_id, report_count) to exactly its values before the PUSH. -/
theorem C7_push_pop_symmetry (st s1 s2 s3 : HidParserState) (pv : Nat) (psv : Int)
    (qv : Nat) (qsv : Int) (mid : List Item)
    (hpush : exec_item st ⟨ItemTag.push, pv, psv⟩ = some s1)
    (hmid : parse_items s1 mid = some s2)
    (hbal : count_push mid = count_pop mid)
    (hpre : ∀ l1 l2, mid = l1 ++ l2 → count_pop l1 ≤ count_push l1)
    (hpop : exec_item s2 ⟨ItemTag.pop, qv, qsv⟩ = some s3) :
    global_subset s3.items = global_subset st.items := by
  obtain ⟨hg1, _, hslot⟩ := exec_item_push st s1 pv psv hpush
  have hcond : ∀ l1 l2, mid = l1 ++ l2 →
      st.global_idx + 1 + count_pop l1 ≤ s1.global_idx + count_push l1 := by
    intro l1 l2 hs
    have := hpre l1 l2 hs
    omega
  obtain ⟨hc, hsl⟩ := parse_items_balanced mid s1 s2 st.global_idx hmid hcond
  obtain ⟨hnz, hg3, hst3, hitems⟩ := exec_item_pop s2 s3 qv qsv hpop
  rw [hitems]
  have hidx : s2.global_idx - 1 = st.global_idx := by omega
  rw [hidx, hsl, hslot]

/-- Witness for C7: a concrete push/pop round trip on a state with
distinctive global items. -/
theorem C7_push_pop_symmetry_witness :
    exec_item push_pop_state ⟨ItemTag.push, 0, 0⟩ = some push_pop_s1 ∧
    exec_item push_pop_s1 ⟨ItemTag.pop, 0, 0⟩ = some push_pop_s3 ∧
    global_subset push_pop_s3.items = global_subset push_pop_state.items := by
  refine ⟨rfl, rfl, ?_⟩
  refine C7_push_pop_symmetry push_pop_state push_pop_s1 push_pop_s1 push_pop_s3 0 0 0 0 []
    rfl rfl rfl ?_ rfl
  intro l1 l2 h
  obtain ⟨rfl, rfl⟩ := List.append_eq_nil.mp h.symm
  exact le_refl _

theorem main_item_flags_report_count (it : HidValueCaps) (a : Bool) :
    (main_item_flags it a).report_count = it.report_count := rfl

theorem main_item_flags_bit_size (it : HidValueCaps) (a : Bool) :
    (main_item_flags it a).bit_size = it.bit_size := rfl

theorem main_item_count_var (it : HidValueCaps) (u : Nat) :
    (main_item_count it u false).report_count = it.report_count - ((u : Int) - 1) := rfl

theorem main_item_count_array (it : HidValueCaps) (u : Nat) :
    main_item_count it u true = it := rfl

/-- C1: a variable (non-array) Main item with U = max(1, usages_size) usage
slots and global report count C ≥ 1 emits exactly U records into the
direction's array (and none elsewhere); the first emitted record — taken from
the last usage slot — has report_count C − (U − 1), every later one has
report_count 1, and the emitted report counts sum to C. -/
theorem C1_variable_expansion (st st1 : HidParserState) (ty : HidReportType)
    (h : parse_new_value_caps st ty = some st1)
    (hvar : Nat.testBit st.items.bit_field 1 = true)
    (hrc : 1 ≤ st.items.report_count) :
    ∃ recs : List HidValueCaps,
      st1.values ty = st.values ty ++ recs ∧
      (∀ t, t ≠ ty → st1.values t = st.values t) ∧
      recs.length = max 1 st.usages_size ∧
      recs.map (fun c => c.report_count) =
        (st.items.report_count - ((max 1 st.usages_size : Nat) : Int) + 1) ::
          List.replicate (max 1 st.usages_size - 1) 1 ∧
      (recs.map (fun c => c.report_count)).sum = st.items.report_count ∧
      recs.head?.map (fun r => (r.usage_page, r.usage_min, r.usage_max)) =
        some (st.usages_page (max 1 st.usages_size - 1),
              st.usages_min (max 1 st.usages_size - 1),
              st.usages_max (max 1 st.usages_size - 1)) := by
  have hrc0 : st.items.report_count ≠ 0 := by omega
  have harr : HID_VALUE_CAPS_IS_ARRAY st.items = false := by
    simp [HID_VALUE_CAPS_IS_ARRAY, hvar]
  obtain ⟨hval, hother, _⟩ := parse_new_value_caps_elim st ty st1 h hrc0
  obtain ⟨u1, hu1⟩ : ∃ u1, max 1 st.usages_size = u1 + 1 :=
    ⟨max 1 st.usages_size - 1, by omega⟩
  have hloop : main_item_loop st ty =
      value_caps_loop st.usages_page st.usages_min st.usages_max false (u1 + 1)
        (main_item_start st ty) (st.data_idx ty) (main_item_items st) := by
    rw [main_item_loop, harr, hu1]
  have hitrc : (main_item_items st).report_count =
      st.items.report_count - ((u1 : Int) + 1 - 1) := by
    rw [main_item_items, harr, hu1, main_item_flags_report_count, main_item_count_var]
    push_cast
    ring
  refine ⟨(main_item_loop st ty).1, hval, hother, ?_, ?_, ?_, ?_⟩
  · rw [hloop, value_caps_loop_length, hu1]
  · rw [hloop, value_caps_loop_var_map_rc, hitrc, hu1]
    simp only [Nat.add_sub_cancel]
    congr 1
    push_cast
    ring
  · rw [hloop, value_caps_loop_var_map_rc, hitrc]
    rw [List.sum_cons, List.sum_replicate]
    push_cast [nsmul_eq_mul]
    ring
  · rw [hloop]
    rw [value_caps_loop_head_usage, hu1]
    simp only [Nat.add_sub_cancel]


/-- C2: an array Main item with U = max(1, usages_size) usage slots and
report count C ≥ 1 emits U records that all share the same start_byte,
start_bit, bit_size and report_count (report_count being C, and the shared
start position being the bit cursor at the beginning of the array — the
pre-item cursor for this (direction, report id), after its lazy
initialisation to 8 when fresh); ARRAY_HAS_MORE is set on exactly the first
U − 1 records and cleared on the last.  `hcur` states that the stored cursor
is a valid `ULONG` value, which holds of every state the C program can be in
(the field is `ULONG bit_size[3][256]`); it is needed because the Lean state
stores the cursor in the wider type `Int`. -/
theorem C2_array_grouping (st st1 : HidParserState) (ty : HidReportType)
    (h : parse_new_value_caps st ty = some st1)
    (harr : Nat.testBit st.items.bit_field 1 = false)
    (hrc : 1 ≤ st.items.report_count)
    (hcur : 0 ≤ st.bit_size ty st.items.report_id ∧
      st.bit_size ty st.items.report_id < 4294967296) :
    ∃ recs : List HidValueCaps,
      st1.values ty = st.values ty ++ recs ∧
      recs.length = max 1 st.usages_size ∧
      (∀ r ∈ recs,
        r.bit_size = st.items.bit_size ∧
        r.report_count = st.items.report_count ∧
        r.start_byte = (if st.bit_size ty st.items.report_id = 0 then 8
          else st.bit_size ty st.items.report_id) / 8 ∧
        r.start_bit = (if st.bit_size ty st.items.report_id = 0 then 8
          else st.bit_size ty st.items.report_id) % 8 ∧
        r.start_byte * 8 + r.start_bit = (if st.bit_size ty st.items.report_id = 0 then 8
          else st.bit_size ty st.items.report_id)) ∧
      recs.map (fun c => c.flags.arrayHasMore) =
        List.replicate (max 1 st.usages_size - 1) true ++ [false] := by
  have hrc0 : st.items.report_count ≠ 0 := by omega
  have harr2 : HID_VALUE_CAPS_IS_ARRAY st.items = true := by
    simp [HID_VALUE_CAPS_IS_ARRAY, harr]
  obtain ⟨hval, hother, _⟩ := parse_new_value_caps_elim st ty st1 h hrc0
  obtain ⟨u1, hu1⟩ : ∃ u1, max 1 st.usages_size = u1 + 1 :=
    ⟨max 1 st.usages_size - 1, by omega⟩
  have hitrc : (main_item_items st).report_count = st.items.report_count := by
    rw [main_item_items, harr2, main_item_flags_report_count, main_item_count_array]
  have hitbs : (main_item_items st).bit_size = st.items.bit_size := by
    rw [main_item_items, harr2, main_item_flags_bit_size, main_item_count_array]
  have hstart : main_item_start st ty =
      (if st.bit_size ty st.items.report_id = 0 then 8
       else st.bit_size ty st.items.report_id) := by
    rw [main_item_start, harr2, if_pos rfl, hitrc, hitbs, main_item_cursor]
    rw [mul_comm ((st.items.bit_size : Int)) st.items.report_count]
    split_ifs with h0
    · omega
    · omega
  have hloop : main_item_loop st ty =
      value_caps_loop st.usages_page st.usages_min st.usages_max true (u1 + 1)
        (main_item_start st ty) (st.data_idx ty) (main_item_items st) := by
    rw [main_item_loop, harr2, hu1]
  refine ⟨(main_item_loop st ty).1, hval, ?_, ?_, ?_⟩
  · rw [hloop, value_caps_loop_length, hu1]
  · intro r hr
    rw [hloop] at hr
    obtain ⟨hsb, hbit, hbs, hrc2⟩ := value_caps_loop_array_shape _ _ _ _ _ _ _ r hr
    rw [hstart] at hsb hbit
    refine ⟨by rw [hbs, hitbs], by rw [hrc2, hitrc], hsb, hbit, ?_⟩
    rw [hsb, hbit, mul_comm]
    exact Int.ediv_add_emod _ 8
  · rw [hloop, value_caps_loop_array_hasmore, hu1]
    simp only [Nat.add_sub_cancel]

/-- C10: after a variable Main item with report count ≥ 1 the global
report_count is left equal to 1 regardless of its previous value; an array
Main item leaves the global report_count unchanged. -/
theorem C10_main_item_report_count (st st1 : HidParserState) (ty : HidReportType)
    (h : parse_new_value_caps st ty = some st1) :
    (Nat.testBit st.items.bit_field 1 = true → 1 ≤ st.items.report_count →
      st1.items.report_count = 1) ∧
    (Nat.testBit st.items.bit_field 1 = false →
      st1.items.report_count = st.items.report_count) := by
  constructor
  · intro hvar hrc
    have hrc0 : st.items.report_count ≠ 0 := by omega
    have harr : HID_VALUE_CAPS_IS_ARRAY st.items = false := by
      simp [HID_VALUE_CAPS_IS_ARRAY, hvar]
    obtain ⟨_, _, _, _, _, _, _, _, hfin⟩ := parse_new_value_caps_elim st ty st1 h hrc0
    obtain ⟨u1, hu1⟩ : ∃ u1, max 1 st.usages_size = u1 + 1 :=
      ⟨max 1 st.usages_size - 1, by omega⟩
    rw [hfin, main_item_loop, harr, hu1, value_caps_loop_var_final_rc]
  · intro harr
    have harr2 : HID_VALUE_CAPS_IS_ARRAY st.items = true := by
      simp [HID_VALUE_CAPS_IS_ARRAY, harr]
    by_cases hrc0 : st.items.report_count = 0
    · obtain ⟨_, _, _, _, _, _, hfin⟩ := parse_new_value_caps_zero_elim st ty st1 h hrc0
      rw [hfin, hrc0]
    · obtain ⟨_, _, _, _, _, _, _, _, hfin⟩ := parse_new_value_caps_elim st ty st1 h hrc0
      rw [hfin, main_item_loop, harr2, value_caps_loop_array_final, main_item_items, harr2,
        main_item_flags_report_count, main_item_count_array]

/-- Witness for C1: the variable Main item of `var_main_state`
(two usages, report count 3, report size 1). -/
theorem C1_variable_expansion_witness :
    ∃ recs : List HidValueCaps,
      var_main_result.values HidReportType.input =
        var_main_state.values HidReportType.input ++ recs ∧
      (∀ t, t ≠ HidReportType.input →
        var_main_result.values t = var_main_state.values t) ∧
      recs.length = max 1 var_main_state.usages_size ∧
      recs.map (fun c => c.report_count) =
        (var_main_state.items.report_count -
            ((max 1 var_main_state.usages_size : Nat) : Int) + 1) ::
          List.replicate (max 1 var_main_state.usages_size - 1) 1 ∧
      (recs.map (fun c => c.report_count)).sum = var_main_state.items.report_count ∧
      recs.head?.map (fun r => (r.usage_page, r.usage_min, r.usage_max)) =
        some (var_main_state.usages_page (max 1 var_main_state.usages_size - 1),
              var_main_state.usages_min (max 1 var_main_state.usages_size - 1),
              var_main_state.usages_max (max 1 var_main_state.usages_size - 1)) :=
  C1_variable_expansion var_main_state var_main_result HidReportType.input rfl
    (by decide) (by decide)

/-- Witness for C2: the array Main item of `array_main_state`
(two usages, report count 2, report size 8). -/
theorem C2_array_grouping_witness :
    ∃ recs : List HidValueCaps,
      array_main_result.values HidReportType.input =
        array_main_state.values HidReportType.input ++ recs ∧
      recs.length = max 1 array_main_state.usages_size ∧
      (∀ r ∈ recs,
        r.bit_size = array_main_state.items.bit_size ∧
        r.report_count = array_main_state.items.report_count ∧
        r.start_byte = (if array_main_state.bit_size HidReportType.input
            array_main_state.items.report_id = 0 then 8
          else array_main_state.bit_size HidReportType.input
            array_main_state.items.report_id) / 8 ∧
        r.start_bit = (if array_main_state.bit_size HidReportType.input
            array_main_state.items.report_id = 0 then 8
          else array_main_state.bit_size HidReportType.input
            array_main_state.items.report_id) % 8 ∧
        r.start_byte * 8 + r.start_bit =
          (if array_main_state.bit_size HidReportType.input
              array_main_state.items.report_id = 0 then 8
           else array_main_state.bit_size HidReportType.input
             array_main_state.items.report_id)) ∧
      recs.map (fun c => c.flags.arrayHasMore) =
        List.replicate (max 1 array_main_state.usages_size - 1) true ++ [false] :=
  C2_array_grouping array_main_state array_main_result HidReportType.input rfl
    (by decide) (by decide) (by decide)

/-- Witness for C10: the variable Main item of `var_main_state` leaves the
global report count at 1. -/
theorem C10_main_item_report_count_witness :
    parse_new_value_caps var_main_state HidReportType.input = some var_main_result ∧
    var_main_result.items.report_count = 1 :=
  ⟨rfl, (C10_main_item_report_count var_main_state var_main_result HidReportType.input
    rfl).1 (by decide) (by decide)⟩

theorem parse_items_append (l1 l2 : List Item) (st : HidParserState) :
    parse_items st (l1 ++ l2) = (parse_items st l1).bind (fun s => parse_items s l2) := by
  induction l1 generalizing st with
  | nil => rfl
  | cons it rest ih =>
      rw [List.cons_append, parse_items, parse_items]
      split <;> simp [ih]

theorem parse_local_usage_isSome (st : HidParserState) (up usage : Nat) :
    (parse_local_usage st up usage).isSome = true ↔
      (if st.items.flags.isRange then 0 else st.usages_size) + 1 ≤ 255 := by
  rw [parse_local_usage]
  rcases hb : st.items.flags.isRange <;> simp [hb] <;> split <;> simp_all <;> omega

set_option maxRecDepth 200000 in
/-- Counterexample for C8: appending usages aborts at the 256th usage, not
the 257th — after 255 accumulated usages the next `USAGE` item fails, and a
descriptor of 256 `USAGE` items (each Main item of which is trivially
preceded by at most 256 usages) is rejected by the usage-overflow check. -/
theorem C8_usage_overflow_counterexample :
    parse_items init_parser_state ((read_items (usage_run 255)).getD []) =
      some usage_run_state ∧
    exec_item usage_run_state ⟨ItemTag.usage, 1, 1⟩ = none ∧
    parse_descriptor true (usage_run 256) = none :=
  ⟨rfl, rfl, rfl⟩

set_option maxRecDepth 200000 in
/-- C8 (amended): accumulating local USAGE items between Main items succeeds
for up to 255 usages, and the parse aborts exactly when a 256th usage is
appended — `parse_local_usage` succeeds iff the new usage count stays at most
255; a run of 255 usages parses, a run of 256 is rejected. -/
theorem C8_usage_overflow :
    (∀ (st : HidParserState) (up usage : Nat),
        (parse_local_usage st up usage).isSome = true ↔
          (if st.items.flags.isRange then 0 else st.usages_size) + 1 ≤ 255) ∧
    (parse_descriptor true (usage_run 255)).isSome = true ∧
    parse_descriptor true (usage_run 256) = none :=
  ⟨parse_local_usage_isSome, rfl, rfl⟩

theorem parse_descriptor_underflow_aux (alloc : Bool) (bytes : List Nat)
    (its l1 l2 : List Item) (it : Item) (st : HidParserState)
    (hread : read_items bytes = some its)
    (hsplit : its = l1 ++ it :: l2)
    (hst : parse_items init_parser_state l1 = some st)
    (hund : (it.tag = ItemTag.pop ∧ st.global_idx = 0) ∨
            (it.tag = ItemTag.endcollection ∧ st.collection_idx = 0)) :
    parse_descriptor alloc bytes = none := by
  rw [parse_descriptor, hread]
  have hexec : exec_item st it = none := by
    obtain ⟨tag, v, sv⟩ := it
    rcases hund with ⟨htag, hz⟩ | ⟨htag, hz⟩ <;> simp only at htag <;> subst htag
    · simp only [exec_item]
      rw [parse_global_pop, if_pos hz]
    · simp only [exec_item]
      rw [parse_end_collection, if_pos hz]
  have hall : parse_items init_parser_state its = none := by
    rw [hsplit, parse_items_append, hst, Option.some_bind]
    rw [parse_items, hexec]
  simp only [hall]

/-- Counterexample for C9: there is no descriptor that reaches a global POP
with an empty global stack and still parses to a non-null blob — underflow
always aborts. -/
theorem C9_underflow_counterexample :
    ¬ ∃ (bytes : List Nat) (its l1 l2 : List Item) (it : Item) (st : HidParserState),
        read_items bytes = some its ∧ its = l1 ++ it :: l2 ∧
        it.tag = ItemTag.pop ∧ parse_items init_parser_state l1 = some st ∧
        st.global_idx = 0 ∧ parse_descriptor true bytes ≠ none := by
  rintro ⟨bytes, its, l1, l2, it, st, hread, hsplit, htag, hst, hgz, hne⟩
  exact hne (parse_descriptor_underflow_aux true bytes its l1 l2 it st hread hsplit hst
    (Or.inl ⟨htag, hgz⟩))

/-- C9 (amended): a global POP on an empty global stack, or an
END_COLLECTION on an empty collection stack, aborts the parse —
`parse_descriptor` returns null for any descriptor whose item sequence
reaches such an item. -/
theorem C9_underflow_aborts (bytes : List Nat) (its l1 l2 : List Item)
    (it : Item) (st : HidParserState)
    (hread : read_items bytes = some its)
    (hsplit : its = l1 ++ it :: l2)
    (hst : parse_items init_parser_state l1 = some st)
    (hund : (it.tag = ItemTag.pop ∧ st.global_idx = 0) ∨
            (it.tag = ItemTag.endcollection ∧ st.collection_idx = 0)) :
    parse_descriptor true bytes = none :=
  parse_descriptor_underflow_aux true bytes its l1 l2 it st hread hsplit hst hund

/-- Witness for C9 (amended): the one-byte descriptor `B4` (a bare global
POP) is rejected. -/
theorem C9_underflow_aborts_witness :
    parse_descriptor true pop_underflow_descriptor = none :=
  C9_underflow_aborts pop_underflow_descriptor [⟨ItemTag.pop, 0, 0⟩] []
    [] ⟨ItemTag.pop, 0, 0⟩ init_parser_state rfl rfl rfl (Or.inl ⟨rfl, rfl⟩)

/-- Counterexample for C6: on the S1 descriptor the parser computes
`input_report_byte_length = 2` (byte 0 is reserved for the report id), not 1
as the claim states. -/
theorem C6_s1_counterexample :
    (parse_descriptor true s1_descriptor).map (fun d => d.input_report_byte_length) ≠
      some 1 := by
  decide

/-- C5 (amended): on every non-success return of
`HidP_GetCollectionDescription` no allocations are retained and the
`ReportIDs` fields of `device_desc` are zero; `device_desc` is entirely
zero-initialised on `INTERNAL_ERROR` and on the `CollectionDesc` allocation
failure, but when the `ReportIDs` allocation fails the already written
`CollectionDesc`/`CollectionDescLength` fields keep their (freed, dangling)
values. -/
theorem C5_error_outputs (bytes : List Nat) (a1 a2 a3 : Bool)
    (h : (HidP_GetCollectionDescription bytes a1 a2 a3).status ≠ HidpStatus.success) :
    (HidP_GetCollectionDescription bytes a1 a2 a3).live_allocations = 0 ∧
    (HidP_GetCollectionDescription bytes a1 a2 a3).desc.ReportIDs = none ∧
    (HidP_GetCollectionDescription bytes a1 a2 a3).desc.ReportIDsLength = 0 ∧
    ((HidP_GetCollectionDescription bytes a1 a2 a3).status = HidpStatus.internalError →
      (HidP_GetCollectionDescription bytes a1 a2 a3).desc = zero_device_desc) ∧
    ((HidP_GetCollectionDescription bytes a1 a2 a3).desc.CollectionDesc = none →
      (HidP_GetCollectionDescription bytes a1 a2 a3).desc = zero_device_desc) := by
  rcases hp : parse_descriptor a1 bytes with _ | pre
  · have hr : HidP_GetCollectionDescription bytes a1 a2 a3 =
        ⟨HidpStatus.internalError, zero_device_desc, 0⟩ := by
      rw [HidP_GetCollectionDescription, hp]
    rw [hr]
    exact ⟨rfl, rfl, rfl, fun _ => rfl, fun _ => rfl⟩
  · rcases ha2 : a2
    all_goals subst ha2
    · have hr : HidP_GetCollectionDescription bytes a1 false a3 =
          ⟨HidpStatus.noMemory, zero_device_desc, 0⟩ := by
        rw [HidP_GetCollectionDescription, hp]
        rfl
      rw [hr]
      exact ⟨rfl, rfl, rfl, fun _ => rfl, fun _ => rfl⟩
    · rcases ha3 : a3
      all_goals subst ha3
      · have hr : (HidP_GetCollectionDescription bytes a1 true false).status =
            HidpStatus.noMemory ∧
            (HidP_GetCollectionDescription bytes a1 true false).live_allocations = 0 ∧
            (HidP_GetCollectionDescription bytes a1 true false).desc.ReportIDs = none ∧
            (HidP_GetCollectionDescription bytes a1 true false).desc.ReportIDsLength = 0 ∧
            (HidP_GetCollectionDescription bytes a1 true false).desc.CollectionDesc ≠ none := by
          rw [HidP_GetCollectionDescription, hp]
          exact ⟨rfl, rfl, rfl, rfl, fun hc => Option.noConfusion hc⟩
        refine ⟨hr.2.1, hr.2.2.1, hr.2.2.2.1, fun hh => ?_, fun hh => ?_⟩
        · rw [hr.1] at hh
          exact absurd hh (by decide)
        · exact absurd hh hr.2.2.2.2
      · exfalso
        apply h
        rw [HidP_GetCollectionDescription, hp]
        rfl

/-- Witness for C5 (amended): the truncated one-byte descriptor `75`
(`REPORT_SIZE` announcing a data byte that is missing) fails with
`INTERNAL_ERROR` and a fully zeroed `device_desc`. -/
theorem C5_error_outputs_witness :
    (HidP_GetCollectionDescription [0x75] true true true).live_allocations = 0 ∧
    (HidP_GetCollectionDescription [0x75] true true true).desc.ReportIDs = none ∧
    (HidP_GetCollectionDescription [0x75] true true true).desc.ReportIDsLength = 0 ∧
    ((HidP_GetCollectionDescription [0x75] true true true).status =
        HidpStatus.internalError →
      (HidP_GetCollectionDescription [0x75] true true true).desc = zero_device_desc) ∧
    ((HidP_GetCollectionDescription [0x75] true true true).desc.CollectionDesc = none →
      (HidP_GetCollectionDescription [0x75] true true true).desc = zero_device_desc) :=
  C5_error_outputs [0x75] true true true (by decide)

/-- Counterexample for C5: when the `ReportIDs` allocation fails (third
oracle false) on the empty — hence accepted — descriptor, the function
returns `NO_MEMORY` but `device_desc` is not zero-initialised:
`CollectionDesc` and `CollectionDescLength = 1` are left in place. -/
theorem C5_error_outputs_counterexample :
    (HidP_GetCollectionDescription [] true true false).status ≠ HidpStatus.success ∧
    (HidP_GetCollectionDescription [] true true false).desc ≠ zero_device_desc := by
  decide

/-- C6 (amended): on the S1 minimal-mouse descriptor the parser succeeds
with usage_page 1, usage 2, exactly 2 input capability records,
`input_report_byte_length = 2` (1 data byte plus the reserved report-id
byte 0), no output or feature records, and 2 link collection nodes. -/
theorem C6_s1_scenario :
    (parse_descriptor true s1_descriptor).map (fun d =>
      (d.usage_page, d.usage, d.input_caps.length, d.input_report_byte_length,
       d.output_caps.length, d.feature_caps.length, d.number_link_collection_nodes)) =
      some (1, 2, 2, 2, 0, 0, 2) := by
  rfl

theorem updT_apply_ne {α : Type} (f : HidReportType → α) (t : HidReportType) (v : α)
    (u : HidReportType) (h : u ≠ t) : updT f t v u = f u := by
  simp [updT, h]

theorem parse_new_value_caps_invariant (st : HidParserState) (ty : HidReportType)
    (st1 : HidParserState)
    (h : parse_new_value_caps st ty = some st1)
    (hinv : parser_invariant st) : parser_invariant st1 := by
  by_cases hz : st.items.report_count = 0
  · obtain ⟨hv, hd, _, _, _, _, _⟩ := parse_new_value_caps_zero_elim st ty st1 h hz
    refine ⟨?_, ?_⟩
    · intro t
      rw [hd t]
      exact hinv.data_idx_range t
    · intro t hwf
      rw [hv t] at hwf
      rw [hv t, hd t]
      exact hinv.caps_partition t hwf
  · obtain ⟨hv, hvo, hd, hdo, _, _, _, _, _⟩ := parse_new_value_caps_elim st ty st1 h hz
    refine ⟨?_, ?_⟩
    · intro t
      by_cases ht : t = ty
      · subst ht
        rw [hd, main_item_loop]
        exact value_caps_loop_advance_range _ _ _ _ _ _ _ _ (hinv.data_idx_range t)
      · rw [hdo t ht]
        exact hinv.data_idx_range t
    · intro t hwf
      by_cases ht : t = ty
      · subst ht
        rw [hv] at hwf
        have hwfold := fun c hc => hwf c (List.mem_append.mpr (Or.inl hc))
        have hwfnew := fun c hc => hwf c (List.mem_append.mpr (Or.inr hc))
        have hpart := hinv.caps_partition t hwfold
        rw [main_item_loop] at hwfnew
        obtain ⟨hle, hcnt⟩ := value_caps_loop_data _ _ _ _ _ _ _ _
          (hinv.data_idx_range t).1 hwfnew
        rw [hv, hd]
        intro k
        rw [main_item_loop, List.filter_append, List.countP_append, hpart k, hcnt k]
        have hd0 := (hinv.data_idx_range t).1
        split_ifs <;> omega
      · rw [hvo t ht] at hwf
        rw [hvo t ht, hdo t ht]
        exact hinv.caps_partition t hwf

theorem exec_item_invariant (st st1 : HidParserState) (it : Item)
    (h : exec_item st it = some st1) (hinv : parser_invariant st) :
    parser_invariant st1 := by
  obtain ⟨tag, v, sv⟩ := it
  cases tag
  case maininput =>
    simp only [exec_item] at h
    exact parse_new_value_caps_invariant _ _ _ h ⟨hinv.data_idx_range, hinv.caps_partition⟩
  case mainoutput =>
    simp only [exec_item] at h
    exact parse_new_value_caps_invariant _ _ _ h ⟨hinv.data_idx_range, hinv.caps_partition⟩
  case mainfeature =>
    simp only [exec_item] at h
    exact parse_new_value_caps_invariant _ _ _ h ⟨hinv.data_idx_range, hinv.caps_partition⟩
  case collection =>
    simp only [exec_item] at h
    rw [parse_new_collection] at h
    split at h
    · exact Option.noConfusion h
    · split at h
      · exact Option.noConfusion h
      · injection h with h2
        subst h2
        split <;> exact ⟨hinv.data_idx_range, hinv.caps_partition⟩
  case endcollection =>
    simp only [exec_item] at h
    rw [parse_end_collection] at h
    split at h
    · exact Option.noConfusion h
    · injection h with h2
      subst h2
      exact ⟨hinv.data_idx_range, hinv.caps_partition⟩
  case push =>
    simp only [exec_item] at h
    rw [parse_global_push] at h
    split at h
    · exact Option.noConfusion h
    · injection h with h2
      subst h2
      exact ⟨hinv.data_idx_range, hinv.caps_partition⟩
  case pop =>
    simp only [exec_item] at h
    rw [parse_global_pop] at h
    split at h
    · exact Option.noConfusion h
    · injection h with h2
      subst h2
      exact ⟨hinv.data_idx_range, hinv.caps_partition⟩
  case usage =>
    simp only [exec_item] at h
    rw [parse_local_usage] at h
    repeat' split at h
    all_goals
      first
        | exact Option.noConfusion h
        | (injection h with h2
           subst h2
           exact ⟨hinv.data_idx_range, hinv.caps_partition⟩)
  case usagemin =>
    simp only [exec_item] at h
    injection h with h2
    subst h2
    rw [parse_local_usage_min]
    split <;> exact ⟨hinv.data_idx_range, hinv.caps_partition⟩
  case usagemax =>
    simp only [exec_item] at h
    injection h with h2
    subst h2
    rw [parse_local_usage_max]
    split <;> exact ⟨hinv.data_idx_range, hinv.caps_partition⟩
  case delimiter => exact Option.noConfusion h
  case unknown => exact Option.noConfusion h
  all_goals
    simp only [exec_item] at h
  all_goals
    injection h with h2
  all_goals
    subst h2
  all_goals
    exact ⟨hinv.data_idx_range, hinv.caps_partition⟩

theorem parse_items_invariant (its : List Item) :
    ∀ st st1, parse_items st its = some st1 → parser_invariant st → parser_invariant st1 := by
  induction its with
  | nil =>
      intro st st1 h hinv
      rw [parse_items] at h
      injection h with h2
      subst h2
      exact hinv
  | cons it rest ih =>
      intro st st1 h hinv
      rw [parse_items] at h
      split at h
      · exact Option.noConfusion h
      · next st2 hex => exact ih st2 st1 h (exec_item_invariant st st2 it hex hinv)

theorem init_parser_state_invariant : parser_invariant init_parser_state := by
  refine ⟨fun t => ⟨le_refl 0, by show (0 : Int) < 65536; omega⟩, ?_⟩
  intro t _
  intro k
  show (List.filter _ []).countP _ = if 0 ≤ k ∧ k < (0 : Int) then 1 else 0
  rw [List.filter_nil, List.countP_nil]
  exact (if_neg (by omega)).symm

/-- C4 (amended): for an accepted descriptor and a direction whose emitted
records all have well-formed usage ranges and data-index intervals strictly
below the `USHORT` wrap bound (`data_index_max < 65535`), the data-index
intervals of the records that carry a nonzero usage partition
`[0, next-data-index)` exactly; zero-usage (padding) records are excluded,
since the loop assigns them an interval without advancing the counter, and
the bound excludes the modulo-`2^16` wrap of the counter store. -/
theorem C4_data_index_partition (descriptor : List Nat) (its : List Item)
    (st : HidParserState) (ty : HidReportType)
    (h1 : read_items descriptor = some its)
    (h2 : parse_items init_parser_state its = some st)
    (hwf : ∀ c ∈ st.values ty, c.usage_min ≤ c.usage_max ∧ c.data_index_max < 65535) :
    0 ≤ st.data_idx ty ∧
      data_index_partition ((st.values ty).filter hid_caps_indexed) (st.data_idx ty) := by
  have hinv := parse_items_invariant its init_parser_state st h2 init_parser_state_invariant
  exact ⟨(hinv.data_idx_range ty).1, hinv.caps_partition ty hwf⟩

theorem C4_data_index_partition_witness :
    (read_items padding_descriptor = some padding_items ∧
     parse_items init_parser_state padding_items = some padding_state ∧
     ∀ c ∈ padding_state.values HidReportType.input,
       c.usage_min ≤ c.usage_max ∧ c.data_index_max < 65535) ∧
    0 ≤ padding_state.data_idx HidReportType.input ∧
      data_index_partition
        ((padding_state.values HidReportType.input).filter hid_caps_indexed)
        (padding_state.data_idx HidReportType.input) :=
  ⟨⟨by decide, by rfl, by decide⟩,
   C4_data_index_partition padding_descriptor padding_items padding_state
     HidReportType.input (by decide) (by rfl) (by decide)⟩

/-- C4 is false as stated: the one-bit constant padding field of
`padding_descriptor` is emitted with the data-index interval `[0, 0]` while
the input direction's final data-index counter stays 0, so the intervals of
all emitted input records do not partition `[0, 0)`. -/
theorem C4_data_index_counterexample :
    (parse_descriptor true padding_descriptor).isSome = true ∧
    read_items padding_descriptor = some padding_items ∧
    parse_items init_parser_state padding_items = some padding_state ∧
    ¬ data_index_partition (padding_state.values HidReportType.input)
        (padding_state.data_idx HidReportType.input) := by
  refine ⟨by decide, by decide, by rfl, ?_⟩
  intro hpart
  exact absurd (hpart 0) (by decide)

set_option maxHeartbeats 4000000 in
set_option maxRecDepth 100000 in
/-- C3: the report-ID byte reservation is violated by the program.  The bit
cursor is a `ULONG` and wraps modulo `2^32`, so the accepted descriptor
`c3_wrap_descriptor` emits a final input capability record with
`report_id = 1` whose field starts at `start_byte * 8 + start_bit = 3 < 8`,
inside the byte reserved for the report-ID prefix. -/
theorem C3_report_id_wrap_bug :
    (parse_descriptor true c3_wrap_descriptor).isSome = true ∧
    c3_wrap_cap ∈ c3_wrap_preparsed.input_caps ∧
    c3_wrap_cap.report_id = 1 ∧
    c3_wrap_cap.start_byte * 8 + c3_wrap_cap.start_bit = 3 := by
  have hlen : 3 < c3_wrap_preparsed.input_caps.length := by decide
  refine ⟨by decide, ?_, by decide, by decide⟩
  have hc : c3_wrap_cap = c3_wrap_preparsed.input_caps[3] := by
    rw [show c3_wrap_cap = c3_wrap_preparsed.input_caps.getD 3 HidValueCaps.zero from rfl,
      List.getD_eq_getElem?_getD, List.getElem?_eq_getElem hlen, Option.getD_some]
  rw [hc]
  exact List.getElem_mem hlen
